import Mathlib

/-!
Verification of the DPE X.509 DER encoding module (`dpe/src/x509.rs`).

The module is embedded shallowly:

* machine bytes are `Nat` values (all byte constants written by the code are
  below 256; bitwise operations mirror the source's `u8` arithmetic),
* the output buffer of `CertWriter` is a `List Nat` of fixed length together
  with a write offset,
* fallible operations return `Except DpeErrorCode`, matching the source's
  `Result<usize, DpeErrorCode>`,
* `for` loops over index ranges and slices are translated to structural
  recursion over lists.

Size-calculator functions (`get_*_size`) and encoders (`encode_*`) are
translated one-to-one from the source.  Definitions whose Rust source is not
part of this repository snapshot (`TciNodeData`, `EcdsaPub`, `EcdsaSig`,
`DpeErrorCode`, the compile-time profile) are modelled from the spec, which
describes them at their interface boundary.
-/

/-- Modelled from the spec: the single error kind produced by this module.
The spec says "A single error kind, `InternalError`, covers all failure
modes"; the full `DpeErrorCode` enum lives outside the snapshot. -/
inductive DpeErrorCode where
  | internalError
deriving DecidableEq, Repr

/-- Modelled from the spec: the two supported compile-time cryptographic
profiles (P-256/SHA-256 and P-384/SHA-384).  The source selects one of them
as the constant `DPE_PROFILE` by a build-time feature; here every
profile-dependent definition takes the profile as an explicit parameter, so
theorems cover both builds. -/
inductive DpeProfile where
  | p256Sha256
  | p384Sha384
deriving DecidableEq, Repr

/-- Big-endian bytes of a `u32` (`to_be_bytes`). -/
def u32_be_bytes (n : Nat) : List Nat :=
  [n >>> 24 % 256, n >>> 16 % 256, n >>> 8 % 256, n % 256]

/-- Big-endian bytes of a `u64` (`to_be_bytes`). -/
def u64_be_bytes (n : Nat) : List Nat :=
  [n >>> 56 % 256, n >>> 48 % 256, n >>> 40 % 256, n >>> 32 % 256,
   n >>> 24 % 256, n >>> 16 % 256, n >>> 8 % 256, n % 256]

/-- Two string types are allowed for RDN values; the variant fixes the DER
tag used when encoding. -/
inductive DirectoryString where
  | printableString (val : List Nat)
  | utf8String (val : List Nat)
deriving DecidableEq, Repr

def DirectoryString.bytes : DirectoryString → List Nat
  | .printableString val => val
  | .utf8String val => val

def DirectoryString.len (s : DirectoryString) : Nat :=
  s.bytes.length

/-- Type for specifying an X.509 RelativeDistinguishedName. -/
structure Name where
  cn : DirectoryString
  serial : DirectoryString
deriving DecidableEq, Repr

/-- Modelled from the spec: a measurement digest (`TciMeasurement`, a
fixed-width byte array in the source crate, whose definition is outside this
snapshot).  The fixed width is imposed where needed through explicit
hypotheses on `bytes.length`. -/
structure TciMeasurement where
  bytes : List Nat
deriving DecidableEq, Repr

/-- Modelled from the spec: one measurement record supplied by the
attestation engine: current digest, cumulative digest, a 32-bit type tag and
a 32-bit locality (`TciNodeData` in the source crate, outside this
snapshot). -/
structure TciNodeData where
  tci_type : Nat
  tci_cumulative : TciMeasurement
  tci_current : TciMeasurement
  locality : Nat
deriving DecidableEq, Repr

structure MeasurementData where
  label : List Nat
  tci_nodes : List TciNodeData
  is_ca : Bool
  supports_extend_tci : Bool
deriving DecidableEq, Repr

/-- Modelled from the spec: an ECDSA public key, two big-endian coordinate
buffers (`EcdsaPub` from the crypto crate, outside this snapshot). -/
structure EcdsaPub where
  x : List Nat
  y : List Nat
deriving DecidableEq, Repr

/-- Modelled from the spec: an ECDSA signature, two big-endian component
buffers (`EcdsaSig` from the crypto crate, outside this snapshot). -/
structure EcdsaSig where
  r : List Nat
  s : List Nat
deriving DecidableEq, Repr

/-- The writer state: borrowed output buffer (modelled by value), write
offset, and the criticality flag for tcg-dice-* extensions. -/
structure CertWriter where
  certificate : List Nat
  offset : Nat
  crit_dice : Bool
deriving DecidableEq, Repr

def BOOL_TAG : Nat := 0x1
def INTEGER_TAG : Nat := 0x2
def BIT_STRING_TAG : Nat := 0x3
def OCTET_STRING_TAG : Nat := 0x4
def OID_TAG : Nat := 0x6
def UTF8_STRING_TAG : Nat := 0xC
def PRINTABLE_STRING_TAG : Nat := 0x13
def GENERALIZE_TIME_TAG : Nat := 0x18
def SEQUENCE_TAG : Nat := 0x30
def SEQUENCE_OF_TAG : Nat := 0x30
def SET_OF_TAG : Nat := 0x31

def BOOL_SIZE : Nat := 1

def CONTEXT_SPECIFIC : Nat := 0x80
def CONSTRUCTED : Nat := 0x20

def X509_V3 : Nat := 2

def ECDSA_OID : DpeProfile → List Nat
  | .p256Sha256 => [0x2A, 0x86, 0x48, 0xCE, 0x3D, 0x04, 0x03, 0x02]
  | .p384Sha384 => [0x2A, 0x86, 0x48, 0xCE, 0x3D, 0x04, 0x03, 0x03]

def EC_PUB_OID : List Nat := [0x2A, 0x86, 0x48, 0xCE, 0x3D, 0x02, 0x01]

def CURVE_OID : DpeProfile → List Nat
  | .p256Sha256 => [0x2A, 0x86, 0x48, 0xCE, 0x3D, 0x03, 0x01, 0x07]
  | .p384Sha384 => [0x2B, 0x81, 0x04, 0x00, 0x22]

def HASH_OID : DpeProfile → List Nat
  | .p256Sha256 => [0x60, 0x86, 0x48, 0x01, 0x65, 0x03, 0x04, 0x02, 0x01]
  | .p384Sha384 => [0x60, 0x86, 0x48, 0x01, 0x65, 0x03, 0x04, 0x02, 0x02]

def RDN_COMMON_NAME_OID : List Nat := [0x55, 0x04, 0x03]
def RDN_SERIALNUMBER_OID : List Nat := [0x55, 0x04, 0x05]

def MULTI_TCBINFO_OID : List Nat := [0x67, 0x81, 0x05, 0x05, 0x04, 0x05]
def UEID_OID : List Nat := [0x67, 0x81, 0x05, 0x05, 0x04, 0x04]
def ECA_OID : List Nat := [0x67, 0x81, 0x05, 0x05, 0x04, 0x64, 0x0C]
def ATTEST_LOC_OID : List Nat := [0x67, 0x81, 0x05, 0x05, 0x04, 0x64, 0x09]
def BASIC_CONSTRAINTS_OID : List Nat := [0x55, 0x1D, 0x13]
def KEY_USAGE_OID : List Nat := [0x55, 0x1D, 0x0F]
def EXTENDED_KEY_USAGE_OID : List Nat := [0x55, 0x1D, 0x25]

/-- ASCII bytes of the fixed notBefore string "20230227000000Z". -/
def NOT_BEFORE : List Nat := [50, 48, 50, 51, 48, 50, 50, 55, 48, 48, 48, 48, 48, 48, 90]

/-- ASCII bytes of the fixed notAfter string "99991231235959Z". -/
def NOT_AFTER : List Nat := [57, 57, 57, 57, 49, 50, 51, 49, 50, 51, 53, 57, 53, 57, 90]

def KeyUsageFlags.DIGITAL_SIGNATURE : Nat := 0b10000000
def KeyUsageFlags.KEY_CERT_SIGN : Nat := 0b00000100

/-- Calculate the number of bytes the ASN.1 size field will be. -/
def get_size_width (size : Nat) : Except DpeErrorCode Nat :=
  if size ≤ 127 then .ok 1
  else if size ≤ 255 then .ok 2
  else if size ≤ 65535 then .ok 3
  else .error .internalError

/-- Get the size of an ASN.1 structure; if tagged, includes tag and size. -/
def get_structure_size (data_size : Nat) (tagged : Bool) : Except DpeErrorCode Nat :=
  if tagged then do
    let w ← get_size_width data_size
    pure (1 + w + data_size)
  else
    pure data_size

/-- Length of the content of the ASN.1 INTEGER encoding of a big-endian
buffer.  Translates the indexed `for` loop of `get_integer_bytes_size`:
leading zero bytes are stripped (the final byte is never stripped), and one
byte is added back when the first retained byte has its high bit set. -/
def int_content_len : List Nat → Nat
  | [] => 0
  | [b] => if b &&& 0x80 ≠ 0 then 2 else 1
  | b :: rest =>
    if b = 0 then int_content_len rest
    else if b &&& 0x80 ≠ 0 then rest.length + 2
    else rest.length + 1

/-- Calculate the number of bytes the ASN.1 INTEGER will be. -/
def get_integer_bytes_size (integer : List Nat) (tagged : Bool) : Except DpeErrorCode Nat :=
  get_structure_size (int_content_len integer) tagged

/-- Calculate the number of bytes the ASN.1 INTEGER of a `u64` will be. -/
def get_integer_size (integer : Nat) (tagged : Bool) : Except DpeErrorCode Nat :=
  get_integer_bytes_size (u64_be_bytes integer) tagged

/-- Calculate the number of bytes an ASN.1 raw bytes field will be. -/
def get_bytes_size (bytes : List Nat) (tagged : Bool) : Except DpeErrorCode Nat :=
  get_structure_size bytes.length tagged

/-- Size of the RDN structure.  Note: as in the source, the serialNumber
branch reuses `RDN_COMMON_NAME_OID` for its OID size (both OIDs have length
3, so the computed size is unaffected). -/
def get_rdn_size (name : Name) (tagged : Bool) : Except DpeErrorCode Nat := do
  let a1 ← get_bytes_size RDN_COMMON_NAME_OID true
  let a2 ← get_bytes_size name.cn.bytes true
  let cn_seq_size ← get_structure_size (a1 + a2) true
  let b1 ← get_bytes_size RDN_COMMON_NAME_OID true
  let b2 ← get_bytes_size name.serial.bytes true
  let serialnumber_seq_size ← get_structure_size (b1 + b2) true
  let cn_set_size ← get_structure_size cn_seq_size true
  let serialnumber_set_size ← get_structure_size serialnumber_seq_size true
  get_structure_size (cn_set_size + serialnumber_set_size) tagged

/-- Size of an ECC public key AlgorithmIdentifier. -/
def get_ec_pub_alg_id_size (P : DpeProfile) (tagged : Bool) : Except DpeErrorCode Nat := do
  let a ← get_bytes_size EC_PUB_OID true
  let b ← get_bytes_size (CURVE_OID P) true
  get_structure_size (a + b) tagged

/-- Size of an ECDSA signature AlgorithmIdentifier. -/
def get_ecdsa_sig_alg_id_size (P : DpeProfile) (tagged : Bool) : Except DpeErrorCode Nat := do
  let a ← get_bytes_size (ECDSA_OID P) true
  get_structure_size a tagged

/-- Size of the Validity structure. -/
def get_validity_size (tagged : Bool) : Except DpeErrorCode Nat := do
  let a ← get_bytes_size NOT_BEFORE true
  let b ← get_bytes_size NOT_AFTER true
  get_structure_size (a + b) tagged

/-- Size of an ECC SubjectPublicKeyInfo. -/
def get_ecdsa_subject_pubkey_info_size (P : DpeProfile) (pubkey : EcdsaPub)
    (tagged : Bool) : Except DpeErrorCode Nat := do
  let point_size := 1 + pubkey.x.length + pubkey.y.length
  let bitstring_size := 1 + point_size
  let a ← get_structure_size bitstring_size true
  let b ← get_ec_pub_alg_id_size P true
  get_structure_size (a + b) tagged

/-- Size of the BIT STRING holding an ECDSA signature. -/
def get_ecdsa_signature_bit_string_size (sig : EcdsaSig) (tagged : Bool) :
    Except DpeErrorCode Nat := do
  let a ← get_integer_bytes_size sig.r true
  let b ← get_integer_bytes_size sig.s true
  let seq_size ← get_structure_size (a + b) true
  get_structure_size (1 + seq_size) tagged

/-- Size of the `[0] EXPLICIT` version field. -/
def get_version_size (tagged : Bool) : Except DpeErrorCode Nat := do
  let integer_size ← get_integer_size X509_V3 true
  get_structure_size integer_size tagged

/-- Size of a DICE FWID structure. -/
def get_fwid_size (P : DpeProfile) (digest : List Nat) (tagged : Bool) :
    Except DpeErrorCode Nat := do
  let a ← get_structure_size (HASH_OID P).length true
  let b ← get_structure_size digest.length true
  get_structure_size (a + b) tagged

/-- Size of a tcg-dice-TcbInfo structure (used only inside MultiTcbInfo, so
no extension fields). -/
def get_tcb_info_size (P : DpeProfile) (node : TciNodeData)
    (supports_extend_tci : Bool) (tagged : Bool) : Except DpeErrorCode Nat := do
  let fwid0_size ← get_fwid_size P node.tci_current.bytes true
  let fwid1_size ←
    if supports_extend_tci then get_fwid_size P node.tci_cumulative.bytes true
    else pure 0
  let fwids_size ← get_structure_size (fwid0_size + fwid1_size) true
  let vendor_and_type ← get_structure_size 4 true
  let size := fwids_size + 2 * vendor_and_type
  get_structure_size size tagged

/-- Size of a tcg-dice-MultiTcbInfo extension, including extension OID and
critical bits.  Rejects an empty TCI node collection. -/
def get_multi_tcb_info_size (P : DpeProfile) (measurements : MeasurementData)
    (tagged : Bool) : Except DpeErrorCode Nat := do
  match measurements.tci_nodes with
  | [] => .error .internalError
  | node0 :: _ => do
    let t ← get_tcb_info_size P node0 measurements.supports_extend_tci true
    let tcb_infos_size := measurements.tci_nodes.length * t
    let multi_tcb_info_size ← get_structure_size tcb_infos_size true
    let a ← get_structure_size MULTI_TCBINFO_OID.length true
    let b ← get_structure_size 1 true
    let c ← get_structure_size multi_tcb_info_size true
    get_structure_size (a + b + c) tagged

/-- Size of a tcg-dice-Ueid extension. -/
def get_ueid_size (measurements : MeasurementData) (tagged : Bool) :
    Except DpeErrorCode Nat := do
  let inner ← get_structure_size measurements.label.length true
  let ext_size ← get_structure_size inner true
  let a ← get_structure_size UEID_OID.length true
  let b ← get_structure_size 1 true
  let c ← get_structure_size ext_size true
  get_structure_size (a + b + c) tagged

/-- Size of a basicConstraints extension. -/
def get_basic_constraints_size (tagged : Bool) : Except DpeErrorCode Nat := do
  let inner ← get_structure_size BOOL_SIZE true
  let ext_size ← get_structure_size inner true
  let a ← get_structure_size BASIC_CONSTRAINTS_OID.length true
  let b ← get_structure_size BOOL_SIZE true
  let c ← get_structure_size ext_size true
  get_structure_size (a + b + c) tagged

/-- Size of a keyUsage extension. -/
def get_key_usage_size (tagged : Bool) : Except DpeErrorCode Nat := do
  let ext_size ← get_structure_size 2 true
  let a ← get_structure_size KEY_USAGE_OID.length true
  let b ← get_structure_size BOOL_SIZE true
  let c ← get_structure_size ext_size true
  get_structure_size (a + b + c) tagged

/-- Size of an extendedKeyUsage extension. -/
def get_extended_key_usage_size (measurements : MeasurementData) (tagged : Bool) :
    Except DpeErrorCode Nat := do
  let policy_oid_size := if measurements.is_ca then ECA_OID.length else ATTEST_LOC_OID.length
  let inner ← get_structure_size policy_oid_size true
  let ext_size ← get_structure_size inner true
  let a ← get_structure_size EXTENDED_KEY_USAGE_OID.length true
  let b ← get_structure_size BOOL_SIZE true
  let c ← get_structure_size ext_size true
  get_structure_size (a + b + c) tagged

/-- Size of the TBS Extensions field. -/
def get_extensions_size (P : DpeProfile) (measurements : MeasurementData)
    (tagged : Bool) (explicit : Bool) : Except DpeErrorCode Nat := do
  let a ← get_multi_tcb_info_size P measurements true
  let b ← get_ueid_size measurements true
  let c ← get_basic_constraints_size true
  let d ← get_key_usage_size true
  let e ← get_extended_key_usage_size measurements true
  let size ← get_structure_size (a + b + c + d + e) explicit
  get_structure_size size tagged

/-- Size of the ASN.1 TBSCertificate structure. -/
def get_tbs_size (P : DpeProfile) (serial_number : List Nat) (issuer_der : List Nat)
    (subject_name : Name) (pubkey : EcdsaPub) (measurements : MeasurementData)
    (tagged : Bool) : Except DpeErrorCode Nat := do
  let a ← get_version_size true
  let b ← get_integer_bytes_size serial_number true
  let c ← get_ecdsa_sig_alg_id_size P true
  let d ← get_validity_size true
  let e ← get_rdn_size subject_name true
  let f ← get_ecdsa_subject_pubkey_info_size P pubkey true
  let g ← get_extensions_size P measurements true true
  get_structure_size (a + b + c + issuer_der.length + d + e + f + g) tagged

/-- Replace the bytes of `buf` at positions `[o, o + p.length)` with `p`
(model of `copy_from_slice` into a subslice). -/
def writeAt (buf : List Nat) (o : Nat) (p : List Nat) : List Nat :=
  buf.take o ++ p ++ buf.drop (o + p.length)

/-- Write all of `bytes` to the certificate buffer. -/
def CertWriter.encode_bytes (w : CertWriter) (bytes : List Nat) :
    Except DpeErrorCode (CertWriter × Nat) :=
  let size := bytes.length
  if w.offset ≥ w.certificate.length ∨ w.offset + size > w.certificate.length then
    .error .internalError
  else
    .ok ({ w with certificate := writeAt w.certificate w.offset bytes,
                  offset := w.offset + size }, size)

/-- Write a single byte to the certificate buffer. -/
def CertWriter.encode_byte (w : CertWriter) (byte : Nat) :
    Except DpeErrorCode (CertWriter × Nat) :=
  if w.offset ≥ w.certificate.length then
    .error .internalError
  else
    .ok ({ w with certificate := w.certificate.set w.offset byte,
                  offset := w.offset + 1 }, 1)

/-- DER-encodes the tag field of an ASN.1 type. -/
def CertWriter.encode_tag_field (w : CertWriter) (tag : Nat) :
    Except DpeErrorCode (CertWriter × Nat) :=
  w.encode_byte tag

/-- Big-endian length bytes written by the long-form loop of
`encode_size_field`, iterating the indices `(0..rem).rev()`. -/
def CertWriter.encode_size_loop (w : CertWriter) (size : Nat) :
    List Nat → Except DpeErrorCode CertWriter
  | [] => pure w
  | i :: rest => do
    let a ← w.encode_byte (size >>> (i * 8) % 256)
    a.1.encode_size_loop size rest

/-- DER-encodes the size field of an ASN.1 type. -/
def CertWriter.encode_size_field (w : CertWriter) (size : Nat) :
    Except DpeErrorCode (CertWriter × Nat) := do
  let size_width ← get_size_width size
  if size_width = 1 then do
    let a ← w.encode_byte (size % 256)
    pure (a.1, size_width)
  else do
    let rem := size_width - 1
    let a ← w.encode_byte (0x80 ||| rem % 256)
    let b ← a.1.encode_size_loop size (List.range rem).reverse
    pure (b, size_width)

/-- DER-encodes a big-endian buffer as an ASN.1 INTEGER. -/
def CertWriter.encode_integer_bytes (w : CertWriter) (integer : List Nat) :
    Except DpeErrorCode (CertWriter × Nat) := do
  let a ← w.encode_tag_field INTEGER_TAG
  let size ← get_integer_bytes_size integer false
  let b ← a.1.encode_size_field size
  let integer_offset := integer.length - size
  let c ← if size > integer.length then b.1.encode_byte 0 else pure (b.1, 0)
  if integer_offset ≥ integer.length then
    .error .internalError
  else do
    let d ← c.1.encode_bytes (integer.drop integer_offset)
    pure (d.1, a.2 + b.2 + c.2 + d.2)

/-- DER-encodes a `u64` as an ASN.1 INTEGER. -/
def CertWriter.encode_integer (w : CertWriter) (integer : Nat) :
    Except DpeErrorCode (CertWriter × Nat) :=
  w.encode_integer_bytes (u64_be_bytes integer)

/-- DER-encodes `oid` as an ASN.1 ObjectIdentifier. -/
def CertWriter.encode_oid (w : CertWriter) (oid : List Nat) :
    Except DpeErrorCode (CertWriter × Nat) := do
  let a ← w.encode_tag_field OID_TAG
  let b ← a.1.encode_size_field oid.length
  let c ← b.1.encode_bytes oid
  pure (c.1, a.2 + b.2 + c.2)

/-- Encode a DirectoryString for an RDN; the tag preserves the variant. -/
def CertWriter.encode_rdn_string (w : CertWriter) (s : DirectoryString) :
    Except DpeErrorCode (CertWriter × Nat) := do
  let val := s.bytes
  let tag := match s with
    | .printableString _ => PRINTABLE_STRING_TAG
    | .utf8String _ => UTF8_STRING_TAG
  let a ← w.encode_tag_field tag
  let b ← a.1.encode_size_field val.length
  let c ← b.1.encode_bytes val
  pure (c.1, a.2 + b.2 + c.2)

/-- DER-encodes a RelativeDistinguishedName with CommonName and SerialNumber
attributes. -/
def CertWriter.encode_rdn (w : CertWriter) (name : Name) :
    Except DpeErrorCode (CertWriter × Nat) := do
  let c1 ← get_structure_size RDN_COMMON_NAME_OID.length true
  let c2 ← get_structure_size name.cn.len true
  let cn_size := c1 + c2
  let s1 ← get_structure_size RDN_SERIALNUMBER_OID.length true
  let s2 ← get_structure_size name.serial.len true
  let serialnumber_size := s1 + s2
  let rdn_name_set_size ← get_structure_size cn_size true
  let rnd_serial_set_size ← get_structure_size serialnumber_size true
  let q1 ← get_structure_size rdn_name_set_size true
  let q2 ← get_structure_size rnd_serial_set_size true
  let rdn_seq_size := q1 + q2
  let a ← w.encode_tag_field SEQUENCE_OF_TAG
  let b ← a.1.encode_size_field rdn_seq_size
  let c ← b.1.encode_tag_field SET_OF_TAG
  let d ← c.1.encode_size_field rdn_name_set_size
  let e ← d.1.encode_tag_field SEQUENCE_TAG
  let f ← e.1.encode_size_field cn_size
  let g ← f.1.encode_oid RDN_COMMON_NAME_OID
  let h ← g.1.encode_rdn_string name.cn
  let i ← h.1.encode_tag_field SET_OF_TAG
  let j ← i.1.encode_size_field rnd_serial_set_size
  let k ← j.1.encode_tag_field SEQUENCE_TAG
  let l ← k.1.encode_size_field serialnumber_size
  let m ← l.1.encode_oid RDN_SERIALNUMBER_OID
  let n ← m.1.encode_rdn_string name.serial
  pure (n.1, a.2 + b.2 + c.2 + d.2 + e.2 + f.2 + g.2 + h.2 + i.2 + j.2 + k.2 + l.2 + m.2 + n.2)

/-- DER-encodes the AlgorithmIdentifier for the EC public key algorithm. -/
def CertWriter.encode_ec_pub_alg_id (w : CertWriter) (P : DpeProfile) :
    Except DpeErrorCode (CertWriter × Nat) := do
  let seq_size ← get_ec_pub_alg_id_size P false
  let a ← w.encode_tag_field SEQUENCE_TAG
  let b ← a.1.encode_size_field seq_size
  let c ← b.1.encode_oid EC_PUB_OID
  let d ← c.1.encode_oid (CURVE_OID P)
  pure (d.1, a.2 + b.2 + c.2 + d.2)

/-- DER-encodes the AlgorithmIdentifier for the ECDSA signature algorithm. -/
def CertWriter.encode_ecdsa_sig_alg_id (w : CertWriter) (P : DpeProfile) :
    Except DpeErrorCode (CertWriter × Nat) := do
  let seq_size ← get_ecdsa_sig_alg_id_size P false
  let a ← w.encode_tag_field SEQUENCE_TAG
  let b ← a.1.encode_size_field seq_size
  let c ← b.1.encode_oid (ECDSA_OID P)
  pure (c.1, a.2 + b.2 + c.2)

/-- Encode the ASN.1 Validity which never expires. -/
def CertWriter.encode_validity (w : CertWriter) :
    Except DpeErrorCode (CertWriter × Nat) := do
  let seq_size ← get_validity_size false
  let a ← w.encode_tag_field SEQUENCE_TAG
  let b ← a.1.encode_size_field seq_size
  let c ← b.1.encode_tag_field GENERALIZE_TIME_TAG
  let d ← c.1.encode_size_field NOT_BEFORE.length
  let e ← d.1.encode_bytes NOT_BEFORE
  let f ← e.1.encode_tag_field GENERALIZE_TIME_TAG
  let g ← f.1.encode_size_field NOT_AFTER.length
  let h ← g.1.encode_bytes NOT_AFTER
  pure (h.1, a.2 + b.2 + c.2 + d.2 + e.2 + f.2 + g.2 + h.2)

/-- Encode SubjectPublicKeyInfo for an ECDSA public key. -/
def CertWriter.encode_ecdsa_subject_pubkey_info (w : CertWriter) (P : DpeProfile)
    (pubkey : EcdsaPub) : Except DpeErrorCode (CertWriter × Nat) := do
  let point_size := 1 + pubkey.x.length + pubkey.y.length
  let bitstring_size := 1 + point_size
  let s1 ← get_structure_size bitstring_size true
  let s2 ← get_ec_pub_alg_id_size P true
  let seq_size := s1 + s2
  let a ← w.encode_tag_field SEQUENCE_TAG
  let b ← a.1.encode_size_field seq_size
  let c ← b.1.encode_ec_pub_alg_id P
  let d ← c.1.encode_tag_field BIT_STRING_TAG
  let e ← d.1.encode_size_field bitstring_size
  let f ← e.1.encode_byte 0
  let g ← f.1.encode_byte 0x4
  let h ← g.1.encode_bytes pubkey.x
  let i ← h.1.encode_bytes pubkey.y
  pure (i.1, a.2 + b.2 + c.2 + d.2 + e.2 + f.2 + g.2 + h.2 + i.2)

/-- BIT STRING containing an ECDSA-Sig-Value SEQUENCE. -/
def CertWriter.encode_ecdsa_signature_bit_string (w : CertWriter) (sig : EcdsaSig) :
    Except DpeErrorCode (CertWriter × Nat) := do
  let r1 ← get_integer_bytes_size sig.r true
  let r2 ← get_integer_bytes_size sig.s true
  let seq_size := r1 + r2
  let a ← w.encode_tag_field BIT_STRING_TAG
  let s ← get_structure_size (1 + seq_size) true
  let b ← a.1.encode_size_field s
  let c ← b.1.encode_byte 0
  let d ← c.1.encode_tag_field SEQUENCE_TAG
  let e ← d.1.encode_size_field seq_size
  let f ← e.1.encode_integer_bytes sig.r
  let g ← f.1.encode_integer_bytes sig.s
  pure (g.1, a.2 + b.2 + c.2 + d.2 + e.2 + f.2 + g.2)

/-- Encode the `[0] EXPLICIT` version field. -/
def CertWriter.encode_version (w : CertWriter) :
    Except DpeErrorCode (CertWriter × Nat) := do
  let a ← w.encode_byte (CONTEXT_SPECIFIC ||| CONSTRUCTED)
  let s ← get_integer_size X509_V3 true
  let b ← a.1.encode_size_field s
  let c ← b.1.encode_integer X509_V3
  pure (c.1, a.2 + b.2 + c.2)

/-- Encode a DICE FWID structure. -/
def CertWriter.encode_fwid (w : CertWriter) (P : DpeProfile) (tci : TciMeasurement) :
    Except DpeErrorCode (CertWriter × Nat) := do
  let a ← w.encode_byte SEQUENCE_TAG
  let s ← get_fwid_size P tci.bytes false
  let b ← a.1.encode_size_field s
  let c ← b.1.encode_byte OID_TAG
  let d ← c.1.encode_size_field (HASH_OID P).length
  let e ← d.1.encode_bytes (HASH_OID P)
  let f ← e.1.encode_byte OCTET_STRING_TAG
  let g ← f.1.encode_size_field tci.bytes.length
  let h ← g.1.encode_bytes tci.bytes
  pure (h.1, a.2 + b.2 + c.2 + d.2 + e.2 + f.2 + g.2 + h.2)

/-- Encode a tcg-dice-TcbInfo structure. -/
def CertWriter.encode_tcb_info (w : CertWriter) (P : DpeProfile) (node : TciNodeData)
    (supports_extend_tci : Bool) : Except DpeErrorCode (CertWriter × Nat) := do
  let tcb_info_size ← get_tcb_info_size P node supports_extend_tci false
  let a ← w.encode_byte SEQUENCE_TAG
  let b ← a.1.encode_size_field tcb_info_size
  let fwid_size ← get_fwid_size P node.tci_current.bytes true
  let c ← b.1.encode_byte (CONTEXT_SPECIFIC ||| CONSTRUCTED ||| 0x06)
  let d ← if supports_extend_tci then c.1.encode_size_field (fwid_size * 2)
          else c.1.encode_size_field fwid_size
  let e ← d.1.encode_fwid P node.tci_current
  let f ← if supports_extend_tci then e.1.encode_fwid P node.tci_cumulative
          else pure (e.1, 0)
  let vinfo := u32_be_bytes node.locality
  let g ← f.1.encode_byte (CONTEXT_SPECIFIC ||| 0x08)
  let h ← g.1.encode_size_field vinfo.length
  let i ← h.1.encode_bytes vinfo
  let j ← i.1.encode_byte (CONTEXT_SPECIFIC ||| 0x09)
  let k ← j.1.encode_size_field 4
  let l ← k.1.encode_bytes (u32_be_bytes node.tci_type)
  pure (l.1, a.2 + b.2 + c.2 + d.2 + e.2 + f.2 + g.2 + h.2 + i.2 + j.2 + k.2 + l.2)

/-- Encode each TcbInfo of a node list in order (the `for` loop at the end of
`encode_multi_tcb_info`). -/
def CertWriter.encode_tcb_info_list (w : CertWriter) (P : DpeProfile)
    (nodes : List TciNodeData) (supports_extend_tci : Bool) :
    Except DpeErrorCode (CertWriter × Nat) :=
  match nodes with
  | [] => pure (w, 0)
  | node :: rest => do
    let a ← w.encode_tcb_info P node supports_extend_tci
    let b ← a.1.encode_tcb_info_list P rest supports_extend_tci
    pure (b.1, a.2 + b.2)

/-- Encode a tcg-dice-MultiTcbInfo extension. -/
def CertWriter.encode_multi_tcb_info (w : CertWriter) (P : DpeProfile)
    (measurements : MeasurementData) : Except DpeErrorCode (CertWriter × Nat) := do
  let multi_tcb_info_size ← get_multi_tcb_info_size P measurements false
  let a ← w.encode_byte SEQUENCE_TAG
  let b ← a.1.encode_size_field multi_tcb_info_size
  let c ← b.1.encode_oid MULTI_TCBINFO_OID
  let crit := if c.1.crit_dice then 0xFF else 0x00
  let d ← c.1.encode_byte BOOL_TAG
  let e ← d.1.encode_size_field BOOL_SIZE
  let f ← e.1.encode_byte crit
  let tcb_infos_size ←
    match measurements.tci_nodes with
    | [] => pure 0
    | node0 :: _ => do
      let t ← get_tcb_info_size P node0 measurements.supports_extend_tci true
      pure (t * measurements.tci_nodes.length)
  let g ← f.1.encode_byte OCTET_STRING_TAG
  let s ← get_structure_size tcb_infos_size true
  let h ← g.1.encode_size_field s
  let i ← h.1.encode_byte SEQUENCE_OF_TAG
  let j ← i.1.encode_size_field tcb_infos_size
  let k ← j.1.encode_tcb_info_list P measurements.tci_nodes measurements.supports_extend_tci
  pure (k.1, a.2 + b.2 + c.2 + d.2 + e.2 + f.2 + g.2 + h.2 + i.2 + j.2 + k.2)

/-- Encode a tcg-dice-Ueid extension. -/
def CertWriter.encode_ueid (w : CertWriter) (measurements : MeasurementData) :
    Except DpeErrorCode (CertWriter × Nat) := do
  let ueid_size ← get_ueid_size measurements false
  let a ← w.encode_byte SEQUENCE_TAG
  let b ← a.1.encode_size_field ueid_size
  let c ← b.1.encode_oid UEID_OID
  let crit := if c.1.crit_dice then 0xFF else 0x00
  let d ← c.1.encode_byte BOOL_TAG
  let e ← d.1.encode_size_field BOOL_SIZE
  let f ← e.1.encode_byte crit
  let g ← f.1.encode_byte OCTET_STRING_TAG
  let s1 ← get_structure_size measurements.label.length true
  let s2 ← get_structure_size s1 true
  let h ← g.1.encode_size_field s2
  let i ← h.1.encode_byte SEQUENCE_TAG
  let s3 ← get_structure_size measurements.label.length true
  let j ← i.1.encode_size_field s3
  let k ← j.1.encode_byte OCTET_STRING_TAG
  let s4 ← get_structure_size measurements.label.length false
  let l ← k.1.encode_size_field s4
  let m ← l.1.encode_bytes measurements.label
  pure (m.1, a.2 + b.2 + c.2 + d.2 + e.2 + f.2 + g.2 + h.2 + i.2 + j.2 + k.2 + l.2 + m.2)

/-- Encode a BasicConstraints extension. -/
def CertWriter.encode_basic_constraints (w : CertWriter)
    (measurements : MeasurementData) : Except DpeErrorCode (CertWriter × Nat) := do
  let basic_constraints_size ← get_basic_constraints_size false
  let a ← w.encode_byte SEQUENCE_TAG
  let b ← a.1.encode_size_field basic_constraints_size
  let c ← b.1.encode_oid BASIC_CONSTRAINTS_OID
  let d ← c.1.encode_byte BOOL_TAG
  let e ← d.1.encode_size_field BOOL_SIZE
  let f ← e.1.encode_byte 0xFF
  let g ← f.1.encode_byte OCTET_STRING_TAG
  let s1 ← get_structure_size 1 true
  let s2 ← get_structure_size s1 true
  let h ← g.1.encode_size_field s2
  let i ← h.1.encode_byte SEQUENCE_TAG
  let s3 ← get_structure_size BOOL_SIZE true
  let j ← i.1.encode_size_field s3
  let k ← j.1.encode_byte BOOL_TAG
  let l ← k.1.encode_size_field BOOL_SIZE
  let m ← if measurements.is_ca then l.1.encode_byte 0xFF else l.1.encode_byte 0x00
  pure (m.1, a.2 + b.2 + c.2 + d.2 + e.2 + f.2 + g.2 + h.2 + i.2 + j.2 + k.2 + l.2 + m.2)

/-- Encode a KeyUsage extension. -/
def CertWriter.encode_key_usage (w : CertWriter) (is_ca : Bool) :
    Except DpeErrorCode (CertWriter × Nat) := do
  let key_usage_size ← get_key_usage_size false
  let a ← w.encode_byte SEQUENCE_TAG
  let b ← a.1.encode_size_field key_usage_size
  let c ← b.1.encode_oid KEY_USAGE_OID
  let d ← c.1.encode_byte BOOL_TAG
  let e ← d.1.encode_size_field BOOL_SIZE
  let f ← e.1.encode_byte 0xFF
  let g ← f.1.encode_byte OCTET_STRING_TAG
  let s1 ← get_structure_size 2 true
  let h ← g.1.encode_size_field s1
  let i ← h.1.encode_byte BIT_STRING_TAG
  let j ← i.1.encode_size_field 2
  let k ← j.1.encode_byte 0
  let key_usage := if is_ca
    then KeyUsageFlags.DIGITAL_SIGNATURE ||| KeyUsageFlags.KEY_CERT_SIGN
    else KeyUsageFlags.DIGITAL_SIGNATURE
  let l ← k.1.encode_byte key_usage
  pure (l.1, a.2 + b.2 + c.2 + d.2 + e.2 + f.2 + g.2 + h.2 + i.2 + j.2 + k.2 + l.2)

/-- Encode an ExtendedKeyUsage extension; the single policy OID is selected
by `is_ca`. -/
def CertWriter.encode_extended_key_usage (w : CertWriter)
    (measurements : MeasurementData) : Except DpeErrorCode (CertWriter × Nat) := do
  let policy_oid := if measurements.is_ca then ECA_OID else ATTEST_LOC_OID
  let extended_key_usage_size ← get_extended_key_usage_size measurements false
  let a ← w.encode_byte SEQUENCE_TAG
  let b ← a.1.encode_size_field extended_key_usage_size
  let c ← b.1.encode_oid EXTENDED_KEY_USAGE_OID
  let d ← c.1.encode_byte BOOL_TAG
  let e ← d.1.encode_size_field BOOL_SIZE
  let f ← e.1.encode_byte 0xFF
  let g ← f.1.encode_byte OCTET_STRING_TAG
  let s1 ← get_structure_size policy_oid.length true
  let s2 ← get_structure_size s1 true
  let h ← g.1.encode_size_field s2
  let i ← h.1.encode_byte SEQUENCE_TAG
  let s3 ← get_structure_size policy_oid.length true
  let j ← i.1.encode_size_field s3
  let k ← j.1.encode_oid policy_oid
  pure (k.1, a.2 + b.2 + c.2 + d.2 + e.2 + f.2 + g.2 + h.2 + i.2 + j.2 + k.2)

/-- Encode the TBS Extensions field, optionally under the `[3] EXPLICIT`
wrapper. -/
def CertWriter.encode_extensions (w : CertWriter) (P : DpeProfile)
    (measurements : MeasurementData) (explicit : Bool) :
    Except DpeErrorCode (CertWriter × Nat) := do
  let a ←
    if explicit then do
      let a1 ← w.encode_byte (CONTEXT_SPECIFIC ||| CONSTRUCTED ||| 0x03)
      let s ← get_extensions_size P measurements true false
      let a2 ← a1.1.encode_size_field s
      pure (a2.1, a1.2 + a2.2)
    else pure (w, 0)
  let b ← a.1.encode_byte SEQUENCE_OF_TAG
  let s ← get_extensions_size P measurements false false
  let c ← b.1.encode_size_field s
  let d ← c.1.encode_multi_tcb_info P measurements
  let e ← d.1.encode_ueid measurements
  let f ← e.1.encode_basic_constraints measurements
  let g ← f.1.encode_key_usage measurements.is_ca
  let h ← g.1.encode_extended_key_usage measurements
  pure (h.1, a.2 + b.2 + c.2 + d.2 + e.2 + f.2 + g.2 + h.2)

/-- Encodes a TBSCertificate. -/
def CertWriter.encode_ecdsa_tbs (w : CertWriter) (P : DpeProfile)
    (serial_number : List Nat) (issuer_name : List Nat) (subject_name : Name)
    (pubkey : EcdsaPub) (measurements : MeasurementData) :
    Except DpeErrorCode (CertWriter × Nat) := do
  let tbs_size ← get_tbs_size P serial_number issuer_name subject_name pubkey
    measurements false
  let a ← w.encode_tag_field SEQUENCE_TAG
  let b ← a.1.encode_size_field tbs_size
  let c ← b.1.encode_version
  let d ← c.1.encode_integer_bytes serial_number
  let e ← d.1.encode_ecdsa_sig_alg_id P
  let f ← e.1.encode_bytes issuer_name
  let g ← f.1.encode_validity
  let h ← g.1.encode_rdn subject_name
  let i ← h.1.encode_ecdsa_subject_pubkey_info P pubkey
  let j ← i.1.encode_extensions P measurements true
  pure (j.1, a.2 + b.2 + c.2 + d.2 + e.2 + f.2 + g.2 + h.2 + i.2 + j.2)

/-- Encode an ECDSA X.509 certificate from pre-encoded TBS bytes and a
signature. -/
def CertWriter.encode_ecdsa_certificate (w : CertWriter) (P : DpeProfile)
    (tbs : List Nat) (sig : EcdsaSig) : Except DpeErrorCode (CertWriter × Nat) := do
  let s1 ← get_ecdsa_sig_alg_id_size P true
  let s2 ← get_ecdsa_signature_bit_string_size sig true
  let cert_size := tbs.length + s1 + s2
  let a ← w.encode_tag_field SEQUENCE_TAG
  let b ← a.1.encode_size_field cert_size
  let c ← b.1.encode_bytes tbs
  let d ← c.1.encode_ecdsa_sig_alg_id P
  let e ← d.1.encode_ecdsa_signature_bit_string sig
  pure (e.1, a.2 + b.2 + c.2 + d.2 + e.2)

/-! ## Helper lemmas for the `Except` monad and the buffer model -/

theorem exceptBind_ok {α β : Type} {x : Except DpeErrorCode α}
    {f : α → Except DpeErrorCode β} {b : β} :
    (x >>= f = Except.ok b) ↔ ∃ a, x = Except.ok a ∧ f a = Except.ok b := by
  cases x <;> simp [Bind.bind, Except.bind]

theorem exceptBind_err {α β : Type} {x : Except DpeErrorCode α}
    {f : α → Except DpeErrorCode β} {e : DpeErrorCode} :
    (x >>= f = Except.error e) ↔
      (x = Except.error e ∨ ∃ a, x = Except.ok a ∧ f a = Except.error e) := by
  cases x <;> simp [Bind.bind, Except.bind]

theorem exceptPure_def {α : Type} (a : α) : (pure a : Except DpeErrorCode α) = Except.ok a := rfl

/-- Total mirror of `get_size_width` (meaningful for sizes at most 65535). -/
def sizeWidthD (s : Nat) : Nat :=
  if s ≤ 127 then 1 else if s ≤ 255 then 2 else 3

/-- Total mirror of `get_structure_size _ true`. -/
def ssD (s : Nat) : Nat := 1 + sizeWidthD s + s

theorem gsw_of_le {s : Nat} (h : s ≤ 65535) : get_size_width s = .ok (sizeWidthD s) := by
  unfold get_size_width sizeWidthD
  by_cases h1 : s ≤ 127
  · rw [if_pos h1, if_pos h1]
  · rw [if_neg h1, if_neg h1]
    by_cases h2 : s ≤ 255
    · rw [if_pos h2, if_pos h2]
    · rw [if_neg h2, if_neg h2, if_pos h]

theorem gsw_ok {s k : Nat} (h : get_size_width s = .ok k) : k = sizeWidthD s ∧ s ≤ 65535 := by
  unfold get_size_width at h
  unfold sizeWidthD
  by_cases h1 : s ≤ 127
  · rw [if_pos h1] at h ⊢
    cases h
    exact ⟨rfl, by omega⟩
  · rw [if_neg h1] at h ⊢
    by_cases h2 : s ≤ 255
    · rw [if_pos h2] at h ⊢
      cases h
      exact ⟨rfl, by omega⟩
    · rw [if_neg h2] at h ⊢
      by_cases h3 : s ≤ 65535
      · rw [if_pos h3] at h
        cases h
        exact ⟨rfl, h3⟩
      · rw [if_neg h3] at h
        cases h

theorem gsw_err {s : Nat} (h : 65535 < s) : get_size_width s = .error .internalError := by
  unfold get_size_width
  split <;> [omega; split] <;> [omega; split] <;> [omega; rfl]

theorem gss_false (s : Nat) : get_structure_size s false = .ok s := rfl

theorem gss_true_of_le {s : Nat} (h : s ≤ 65535) :
    get_structure_size s true = .ok (ssD s) := by
  unfold get_structure_size
  rw [if_pos rfl]
  rw [show (get_size_width s >>= fun w => pure (1 + w + s) : Except DpeErrorCode Nat) =
    Except.ok (ssD s) from ?_]
  rw [gsw_of_le h]
  rfl

theorem gss_true_ok {s v : Nat} (h : get_structure_size s true = .ok v) :
    v = ssD s ∧ s ≤ 65535 := by
  unfold get_structure_size at h
  rw [if_pos rfl, exceptBind_ok] at h
  obtain ⟨k, hk, hv⟩ := h
  obtain ⟨rfl, hle⟩ := gsw_ok hk
  rw [exceptPure_def] at hv
  cases hv
  exact ⟨rfl, hle⟩

theorem writeAt_length {buf p : List Nat} {o : Nat} (h : o + p.length ≤ buf.length) :
    (writeAt buf o p).length = buf.length := by
  unfold writeAt
  simp only [List.length_append, List.length_take, List.length_drop]
  omega

theorem writeAt_nil {buf : List Nat} {o : Nat} :
    writeAt buf o [] = buf := by
  unfold writeAt
  simp [List.take_append_drop]

theorem writeAt_writeAt {buf p q : List Nat} {o : Nat} (h : o + p.length ≤ buf.length) :
    writeAt (writeAt buf o p) (o + p.length) q = writeAt buf o (p ++ q) := by
  unfold writeAt
  have hlen : (buf.take o ++ p).length = o + p.length := by
    simp only [List.length_append, List.length_take]
    omega
  have htake : (buf.take o ++ p ++ buf.drop (o + p.length)).take (o + p.length) =
      buf.take o ++ p := by
    rw [List.take_append_of_le_length (by rw [hlen])]
    exact List.take_of_length_le (by rw [hlen])
  have hdrop : (buf.take o ++ p ++ buf.drop (o + p.length)).drop (o + p.length + q.length) =
      buf.drop (o + p.length + q.length) := by
    rw [show o + p.length + q.length = (buf.take o ++ p).length + q.length by rw [hlen],
      List.drop_append, List.drop_drop]
    congr 1
    omega
  rw [htake, hdrop]
  simp only [List.length_append]
  rw [show o + (p.length + q.length) = o + p.length + q.length by omega]
  simp [List.append_assoc]

theorem set_eq_writeAt {buf : List Nat} {o b : Nat} (h : o < buf.length) :
    buf.set o b = writeAt buf o [b] := by
  unfold writeAt
  rw [List.set_eq_take_append_cons_drop, if_pos h]
  simp

theorem encode_byte_ok_iff {w : CertWriter} {b : Nat} {r : CertWriter × Nat} :
    w.encode_byte b = .ok r ↔
      (w.offset < w.certificate.length ∧
       r = (⟨writeAt w.certificate w.offset [b], w.offset + 1, w.crit_dice⟩, 1)) := by
  unfold CertWriter.encode_byte
  split
  · constructor
    · intro h; cases h
    · intro ⟨h1, _⟩; omega
  · rename_i hlt
    have hlt' : w.offset < w.certificate.length := by omega
    constructor
    · intro h
      cases h
      exact ⟨hlt', by rw [set_eq_writeAt hlt']⟩
    · intro ⟨_, h⟩
      rw [set_eq_writeAt hlt'] at *
      rw [h]

theorem encode_bytes_ok_iff {w : CertWriter} {p : List Nat} {r : CertWriter × Nat} :
    w.encode_bytes p = .ok r ↔
      (w.offset < w.certificate.length ∧ w.offset + p.length ≤ w.certificate.length ∧
       r = (⟨writeAt w.certificate w.offset p, w.offset + p.length, w.crit_dice⟩,
            p.length)) := by
  unfold CertWriter.encode_bytes
  dsimp only
  split
  · rename_i hc
    constructor
    · intro h; cases h
    · intro ⟨h1, h2, _⟩; omega
  · rename_i hc
    constructor
    · intro h
      cases h
      exact ⟨by omega, by omega, rfl⟩
    · intro ⟨_, _, h⟩
      rw [h]

/-! ## Byte-level layout and the success relation `EncOk` -/

/-- Modelled from the spec: the DER length field layout.  If the size is at
most 127 it is a single byte holding the value; otherwise one byte `0x80 | N`
followed by `N` big-endian bytes of the value, with `N` minimal (`N = 1` for
sizes up to 255, `N = 2` for sizes up to 65535). -/
def sizeFieldSpecBytes (size : Nat) : List Nat :=
  if size ≤ 127 then [size]
  else if size ≤ 255 then [0x80 ||| 1, size]
  else [0x80 ||| 2, size / 256, size % 256]

theorem sfb_length (s : Nat) : (sizeFieldSpecBytes s).length = sizeWidthD s := by
  unfold sizeFieldSpecBytes sizeWidthD
  by_cases h1 : s ≤ 127
  · rw [if_pos h1, if_pos h1]
    rfl
  · rw [if_neg h1, if_neg h1]
    by_cases h2 : s ≤ 255
    · rw [if_pos h2, if_pos h2]
      rfl
    · rw [if_neg h2, if_neg h2]
      rfl

/-- Tag, minimal DER length field, content. -/
def tlv (tag : Nat) (content : List Nat) : List Nat :=
  tag :: (sizeFieldSpecBytes content.length ++ content)

theorem tlv_length (tag : Nat) (c : List Nat) : (tlv tag c).length = ssD c.length := by
  unfold tlv ssD
  simp [sfb_length]
  omega

theorem tlv_eq_cons (tag : Nat) (c : List Nat) :
    tlv tag c = tag :: (sizeFieldSpecBytes c.length ++ c) := rfl

/-- Successful encoder run: starting from writer `w`, the byte list `bytes`
fits the buffer, is written at the current offset, and is returned together
with its length. -/
def EncOk (w : CertWriter) (bytes : List Nat) (r : CertWriter × Nat) : Prop :=
  w.offset + bytes.length ≤ w.certificate.length ∧
  r = (⟨writeAt w.certificate w.offset bytes, w.offset + bytes.length, w.crit_dice⟩,
       bytes.length)

theorem EncOk.comp {w : CertWriter} {p q : List Nat} {r1 r2 : CertWriter × Nat}
    (h1 : EncOk w p r1) (h2 : EncOk r1.1 q r2) :
    EncOk w (p ++ q) (r2.1, (p ++ q).length) := by
  obtain ⟨hb1, rfl⟩ := h1
  obtain ⟨hb2, rfl⟩ := h2
  dsimp only at hb2 ⊢
  rw [writeAt_length hb1] at hb2
  constructor
  · simp only [List.length_append]
    omega
  · rw [writeAt_writeAt hb1]
    simp only [List.length_append, Nat.add_assoc]

theorem EncOk.nil {w : CertWriter} (h : w.offset ≤ w.certificate.length) :
    EncOk w [] (w, 0) := by
  constructor
  · simpa using h
  · rw [writeAt_nil]
    rfl

theorem EncOk.snd {w : CertWriter} {bytes : List Nat} {r : CertWriter × Nat}
    (h : EncOk w bytes r) : r.2 = bytes.length := by
  rw [h.2]

theorem EncOk.fst_offset {w : CertWriter} {bytes : List Nat} {r : CertWriter × Nat}
    (h : EncOk w bytes r) : r.1.offset = w.offset + bytes.length := by
  rw [h.2]

theorem EncOk.fst_len {w : CertWriter} {bytes : List Nat} {r : CertWriter × Nat}
    (h : EncOk w bytes r) : r.1.certificate.length = w.certificate.length := by
  rw [h.2]
  exact writeAt_length h.1

theorem EncOk.fst_crit {w : CertWriter} {bytes : List Nat} {r : CertWriter × Nat}
    (h : EncOk w bytes r) : r.1.crit_dice = w.crit_dice := by
  rw [h.2]

theorem EncOk.fst_cert {w : CertWriter} {bytes : List Nat} {r : CertWriter × Nat}
    (h : EncOk w bytes r) : r.1.certificate = writeAt w.certificate w.offset bytes := by
  rw [h.2]

theorem EncOk.bound {w : CertWriter} {bytes : List Nat} {r : CertWriter × Nat}
    (h : EncOk w bytes r) : w.offset + bytes.length ≤ w.certificate.length := h.1

/-- Transport an `EncOk` along an equality of byte lists and of results. -/
theorem EncOk.cast {w : CertWriter} {bytes bytes' : List Nat} {r r' : CertWriter × Nat}
    (h : EncOk w bytes r) (hb : bytes = bytes') (hr : r' = r) : EncOk w bytes' r' := by
  rw [hr, ← hb]
  exact h

theorem encode_byte_ok {w : CertWriter} {b : Nat} {r : CertWriter × Nat}
    (h : w.encode_byte b = .ok r) : EncOk w [b] r := by
  rw [encode_byte_ok_iff] at h
  obtain ⟨hlt, rfl⟩ := h
  exact ⟨by simpa using hlt, rfl⟩

theorem encode_bytes_ok {w : CertWriter} {p : List Nat} {r : CertWriter × Nat}
    (h : w.encode_bytes p = .ok r) : EncOk w p r := by
  rw [encode_bytes_ok_iff] at h
  obtain ⟨h1, h2, rfl⟩ := h
  exact ⟨h2, rfl⟩

theorem encode_tag_field_ok {w : CertWriter} {b : Nat} {r : CertWriter × Nat}
    (h : w.encode_tag_field b = .ok r) : EncOk w [b] r :=
  encode_byte_ok h

theorem encode_size_field_ok {w : CertWriter} {s : Nat} {r : CertWriter × Nat}
    (h : w.encode_size_field s = .ok r) :
    s ≤ 65535 ∧ EncOk w (sizeFieldSpecBytes s) r := by
  rw [CertWriter.encode_size_field, exceptBind_ok] at h
  obtain ⟨k, hk, h⟩ := h
  obtain ⟨rfl, h65⟩ := gsw_ok hk
  refine ⟨h65, ?_⟩
  by_cases h127 : s ≤ 127
  · have hw1 : sizeWidthD s = 1 := by unfold sizeWidthD; rw [if_pos h127]
    rw [hw1, if_pos rfl, exceptBind_ok] at h
    obtain ⟨a, ha, h⟩ := h
    rw [exceptPure_def] at h
    cases h
    have e1 := encode_byte_ok ha
    rw [Nat.mod_eq_of_lt (show s < 256 by omega)] at e1
    obtain ⟨hbnd, rfl⟩ := e1
    refine EncOk.cast ⟨hbnd, rfl⟩ ?_ ?_
    · unfold sizeFieldSpecBytes
      rw [if_pos h127]
    · rfl
  · by_cases h255 : s ≤ 255
    · have hw2 : sizeWidthD s = 2 := by unfold sizeWidthD; rw [if_neg h127, if_pos h255]
      rw [hw2, if_neg (by omega)] at h
      simp only [CertWriter.encode_size_loop, List.range_succ, List.range_zero,
        List.reverse_cons, List.reverse_nil, List.nil_append, List.cons_append,
        List.append_nil, Nat.zero_mul, Nat.shiftRight_zero,
        exceptBind_ok, exceptPure_def, Except.ok.injEq] at h
      obtain ⟨a, ha, b, ⟨a2, ha2, hb⟩, hr⟩ := h
      have e1 := encode_byte_ok ha
      have e2 := encode_byte_ok ha2
      rw [Nat.mod_eq_of_lt (show s < 256 by omega)] at e2
      have e12 := e1.comp e2
      refine e12.cast ?_ ?_
      · unfold sizeFieldSpecBytes
        rw [if_neg h127, if_pos h255]
        rfl
      · rw [← hr, ← hb]
        rfl
    · have hw3 : sizeWidthD s = 3 := by unfold sizeWidthD; rw [if_neg h127, if_neg h255]
      rw [hw3, if_neg (by omega)] at h
      simp only [CertWriter.encode_size_loop, List.range_succ, List.range_zero,
        List.reverse_cons, List.reverse_nil, List.nil_append, List.cons_append,
        List.append_nil, Nat.zero_mul, Nat.one_mul, Nat.shiftRight_zero,
        exceptBind_ok, exceptPure_def, Except.ok.injEq] at h
      obtain ⟨a, ha, b, ⟨a2, ha2, a3, ha3, hb⟩, hr⟩ := h
      have e1 := encode_byte_ok ha
      have e2 := encode_byte_ok ha2
      have e3 := encode_byte_ok ha3
      rw [Nat.shiftRight_eq_div_pow, show (2:Nat) ^ 8 = 256 from rfl,
        Nat.mod_eq_of_lt (show s / 256 < 256 by omega)] at e2
      have e123 := (e1.comp e2).comp e3
      refine e123.cast ?_ ?_
      · unfold sizeFieldSpecBytes
        rw [if_neg h127, if_neg h255]
        rfl
      · rw [← hr, ← hb]
        rfl

/-! ## Per-encoder success characterisations -/

theorem encode_oid_ok {w : CertWriter} {oid : List Nat} {r : CertWriter × Nat}
    (h : w.encode_oid oid = .ok r) :
    get_bytes_size oid true = .ok (tlv OID_TAG oid).length ∧
      EncOk w (tlv OID_TAG oid) r := by
  rw [CertWriter.encode_oid] at h
  simp only [CertWriter.encode_tag_field, exceptBind_ok, exceptPure_def,
    Except.ok.injEq] at h
  obtain ⟨a, ha, b, hb, c, hc, hr⟩ := h
  have e1 := encode_byte_ok ha
  obtain ⟨h65, e2⟩ := encode_size_field_ok hb
  have e3 := encode_bytes_ok hc
  constructor
  · unfold get_bytes_size
    rw [gss_true_of_le h65, tlv_length]
  · have e := (e1.comp e2).comp e3
    refine e.cast ?_ ?_
    · rfl
    · rw [← hr, e1.snd, e2.snd, e3.snd]
      simp [tlv, List.length_append]
      omega

/-- Content bytes of the INTEGER encoding as emitted by
`encode_integer_bytes`: the retained suffix, preceded by a 0x00 byte when
the computed content length exceeds the input length. -/
def int_content (l : List Nat) : List Nat :=
  (if int_content_len l > l.length then [0] else []) ++
    l.drop (l.length - int_content_len l)

/-- Bytes emitted by `encode_integer_bytes`. -/
def intChunk (l : List Nat) : List Nat :=
  INTEGER_TAG :: (sizeFieldSpecBytes (int_content_len l) ++ int_content l)

/-- Bytes emitted by `encode_rdn_string`. -/
def rdnStringChunk (s : DirectoryString) : List Nat :=
  match s with
  | .printableString v => tlv PRINTABLE_STRING_TAG v
  | .utf8String v => tlv UTF8_STRING_TAG v

theorem int_content_len_le (l : List Nat) : int_content_len l ≤ l.length + 1 := by
  induction l with
  | nil => simp [int_content_len]
  | cons b rest ih =>
    cases rest with
    | nil =>
      unfold int_content_len
      split <;> simp
    | cons c t =>
      show int_content_len (b :: c :: t) ≤ (b :: c :: t).length + 1
      unfold int_content_len
      split
      · exact le_trans ih (by simp)
      · split <;> simp

theorem int_content_len_pos (l : List Nat) (h : l ≠ []) : 1 ≤ int_content_len l := by
  induction l with
  | nil => exact absurd rfl h
  | cons b rest ih =>
    cases rest with
    | nil =>
      unfold int_content_len
      split <;> simp
    | cons c t =>
      unfold int_content_len
      split
      · exact ih (by simp)
      · split <;> omega

theorem int_content_length (l : List Nat) : (int_content l).length = int_content_len l := by
  unfold int_content
  have hle := int_content_len_le l
  by_cases hgt : int_content_len l > l.length
  · rw [if_pos hgt]
    simp only [List.length_append, List.length_cons, List.length_nil, List.length_drop]
    omega
  · rw [if_neg hgt]
    simp only [List.nil_append, List.length_drop]
    omega

theorem intChunk_length (l : List Nat) :
    (intChunk l).length = ssD (int_content_len l) := by
  unfold intChunk ssD
  simp only [List.length_cons, List.length_append, sfb_length, int_content_length]
  omega

theorem encode_rdn_string_ok {w : CertWriter} {s : DirectoryString} {r : CertWriter × Nat}
    (h : w.encode_rdn_string s = .ok r) :
    get_bytes_size s.bytes true = .ok (rdnStringChunk s).length ∧
      EncOk w (rdnStringChunk s) r := by
  cases s with
  | printableString v =>
    rw [CertWriter.encode_rdn_string] at h
    simp only [CertWriter.encode_tag_field, DirectoryString.bytes, exceptBind_ok,
      exceptPure_def, Except.ok.injEq] at h
    obtain ⟨a, ha, b, hb, c, hc, hr⟩ := h
    have e1 := encode_byte_ok ha
    obtain ⟨h65, e2⟩ := encode_size_field_ok hb
    have e3 := encode_bytes_ok hc
    constructor
    · unfold get_bytes_size
      rw [show (DirectoryString.printableString v).bytes = v from rfl,
        gss_true_of_le h65, rdnStringChunk, tlv_length]
    · refine ((e1.comp e2).comp e3).cast rfl ?_
      rw [← hr, e1.snd, e2.snd, e3.snd]
      simp [rdnStringChunk, tlv, List.length_append]
      omega
  | utf8String v =>
    rw [CertWriter.encode_rdn_string] at h
    simp only [CertWriter.encode_tag_field, DirectoryString.bytes, exceptBind_ok,
      exceptPure_def, Except.ok.injEq] at h
    obtain ⟨a, ha, b, hb, c, hc, hr⟩ := h
    have e1 := encode_byte_ok ha
    obtain ⟨h65, e2⟩ := encode_size_field_ok hb
    have e3 := encode_bytes_ok hc
    constructor
    · unfold get_bytes_size
      rw [show (DirectoryString.utf8String v).bytes = v from rfl,
        gss_true_of_le h65, rdnStringChunk, tlv_length]
    · refine ((e1.comp e2).comp e3).cast rfl ?_
      rw [← hr, e1.snd, e2.snd, e3.snd]
      simp [rdnStringChunk, tlv, List.length_append]
      omega

theorem encode_integer_bytes_ok {w : CertWriter} {integer : List Nat} {r : CertWriter × Nat}
    (h : w.encode_integer_bytes integer = .ok r) :
    get_integer_bytes_size integer true = .ok (intChunk integer).length ∧
      EncOk w (intChunk integer) r := by
  rw [CertWriter.encode_integer_bytes] at h
  simp only [CertWriter.encode_tag_field, get_integer_bytes_size, gss_false,
    exceptBind_ok, exceptPure_def, Except.ok.injEq, exists_eq_left'] at h
  obtain ⟨a, ha, b, hb, h⟩ := h
  by_cases hnil : integer = []
  · subst hnil
    simp [int_content_len, exceptBind_ok] at h
  · have hn1 : 1 ≤ integer.length := List.length_pos.mpr hnil
    have hpos := int_content_len_pos integer hnil
    have hle := int_content_len_le integer
    have e1 := encode_byte_ok ha
    obtain ⟨h65, e2⟩ := encode_size_field_ok hb
    have hsize : get_integer_bytes_size integer true =
        .ok (intChunk integer).length := by
      unfold get_integer_bytes_size
      rw [gss_true_of_le h65, intChunk_length]
    refine ⟨hsize, ?_⟩
    by_cases hgt : int_content_len integer > integer.length
    · rw [if_pos hgt] at h
      rw [exceptBind_ok] at h
      obtain ⟨c, hc, h⟩ := h
      rw [if_neg (show ¬(integer.length - int_content_len integer ≥ integer.length)
        by omega)] at h
      rw [exceptBind_ok] at h
      obtain ⟨d, hd, hr⟩ := h
      rw [Except.ok.injEq] at hr
      have e3 := encode_byte_ok hc
      have e4 := encode_bytes_ok hd
      refine (((e1.comp e2).comp e3).comp e4).cast ?_ ?_
      · simp [intChunk, int_content, if_pos hgt, List.append_assoc]
      · rw [← hr, e1.snd, e2.snd, e3.snd, e4.snd]
        simp only [Prod.mk.injEq, List.length_append, List.length_cons,
          List.length_nil, List.length_drop, true_and]
        all_goals omega
    · rw [if_neg hgt] at h
      rw [exceptBind_ok] at h
      obtain ⟨c, hc, h⟩ := h
      rw [Except.ok.injEq] at hc
      rw [if_neg (show ¬(integer.length - int_content_len integer ≥ integer.length)
        by omega)] at h
      rw [exceptBind_ok] at h
      obtain ⟨d, hd, hr⟩ := h
      rw [Except.ok.injEq] at hr
      rw [← hc] at hd
      have e4 := encode_bytes_ok hd
      refine ((e1.comp e2).comp e4).cast ?_ ?_
      · simp [intChunk, int_content, if_neg hgt, List.append_assoc]
      · rw [← hr, ← hc, e1.snd, e2.snd, e4.snd]
        simp only [Prod.mk.injEq, List.length_append, List.length_cons,
          List.length_nil, List.length_drop, true_and]
        all_goals omega

theorem encode_integer_ok {w : CertWriter} {n : Nat} {r : CertWriter × Nat}
    (h : w.encode_integer n = .ok r) :
    get_integer_size n true = .ok (intChunk (u64_be_bytes n)).length ∧
      EncOk w (intChunk (u64_be_bytes n)) r :=
  encode_integer_bytes_ok h

theorem exceptOk_bind {α β : Type} (a : α) (f : α → Except DpeErrorCode β) :
    (Except.ok a >>= f) = f a := rfl

/-- Bytes emitted by `encode_ec_pub_alg_id`. -/
def ecPubAlgIdChunk (P : DpeProfile) : List Nat :=
  tlv SEQUENCE_TAG (tlv OID_TAG EC_PUB_OID ++ tlv OID_TAG (CURVE_OID P))

/-- Bytes emitted by `encode_ecdsa_sig_alg_id`. -/
def ecdsaSigAlgIdChunk (P : DpeProfile) : List Nat :=
  tlv SEQUENCE_TAG (tlv OID_TAG (ECDSA_OID P))

/-- Bytes emitted by `encode_validity`. -/
def validityChunk : List Nat :=
  tlv SEQUENCE_TAG (tlv GENERALIZE_TIME_TAG NOT_BEFORE ++ tlv GENERALIZE_TIME_TAG NOT_AFTER)

theorem encode_ec_pub_alg_id_ok {w : CertWriter} {P : DpeProfile} {r : CertWriter × Nat}
    (h : w.encode_ec_pub_alg_id P = .ok r) :
    get_ec_pub_alg_id_size P true = .ok (ecPubAlgIdChunk P).length ∧
      EncOk w (ecPubAlgIdChunk P) r := by
  rw [CertWriter.encode_ec_pub_alg_id] at h
  simp only [CertWriter.encode_tag_field, exceptBind_ok, exceptPure_def,
    Except.ok.injEq] at h
  obtain ⟨s, hs, a, ha, b, hb, c, hc, d, hd, hr⟩ := h
  rw [get_ec_pub_alg_id_size] at hs
  simp only [get_bytes_size, exceptBind_ok, gss_false, exceptPure_def,
    Except.ok.injEq] at hs
  obtain ⟨v1, hv1, v2, hv2, hs⟩ := hs
  obtain ⟨rfl, hb1⟩ := gss_true_ok hv1
  obtain ⟨rfl, hb2⟩ := gss_true_ok hv2
  subst hs
  have e1 := encode_byte_ok ha
  obtain ⟨h65, e2⟩ := encode_size_field_ok hb
  obtain ⟨_, e3⟩ := encode_oid_ok hc
  obtain ⟨_, e4⟩ := encode_oid_ok hd
  constructor
  · rw [get_ec_pub_alg_id_size]
    simp only [get_bytes_size, gss_true_of_le hb1, gss_true_of_le hb2,
      exceptOk_bind, gss_false, exceptPure_def, exceptBind_ok]
    rw [gss_true_of_le h65]
    rw [ecPubAlgIdChunk, tlv_length]
    simp [List.length_append, tlv_length]
  · refine ((((e1.comp e2).comp e3).comp e4)).cast ?_ ?_
    · conv_rhs => rw [ecPubAlgIdChunk, tlv_eq_cons, List.length_append,
        tlv_length, tlv_length]
      simp [tlv, List.append_assoc]
    · rw [← hr, e1.snd, e2.snd, e3.snd, e4.snd]
      simp only [Prod.mk.injEq, List.length_append, List.length_cons, sfb_length,
        tlv_length, List.length_nil, true_and, ecPubAlgIdChunk, tlv, ssD]
      all_goals omega

theorem encode_ecdsa_sig_alg_id_ok {w : CertWriter} {P : DpeProfile} {r : CertWriter × Nat}
    (h : w.encode_ecdsa_sig_alg_id P = .ok r) :
    get_ecdsa_sig_alg_id_size P true = .ok (ecdsaSigAlgIdChunk P).length ∧
      EncOk w (ecdsaSigAlgIdChunk P) r := by
  rw [CertWriter.encode_ecdsa_sig_alg_id] at h
  simp only [CertWriter.encode_tag_field, exceptBind_ok, exceptPure_def,
    Except.ok.injEq] at h
  obtain ⟨s, hs, a, ha, b, hb, c, hc, hr⟩ := h
  rw [get_ecdsa_sig_alg_id_size] at hs
  simp only [get_bytes_size, exceptBind_ok, gss_false, exceptPure_def,
    Except.ok.injEq] at hs
  obtain ⟨v1, hv1, hs⟩ := hs
  obtain ⟨rfl, hb1⟩ := gss_true_ok hv1
  subst hs
  have e1 := encode_byte_ok ha
  obtain ⟨h65, e2⟩ := encode_size_field_ok hb
  obtain ⟨_, e3⟩ := encode_oid_ok hc
  constructor
  · rw [get_ecdsa_sig_alg_id_size]
    simp only [get_bytes_size, gss_true_of_le hb1, exceptOk_bind, gss_false,
      exceptPure_def, exceptBind_ok]
    rw [gss_true_of_le h65]
    rw [ecdsaSigAlgIdChunk, tlv_length]
    simp [tlv_length]
  · refine (((e1.comp e2).comp e3)).cast ?_ ?_
    · conv_rhs => rw [ecdsaSigAlgIdChunk, tlv_eq_cons, tlv_length]
      simp [tlv, List.append_assoc]
    · rw [← hr, e1.snd, e2.snd, e3.snd]
      simp only [Prod.mk.injEq, List.length_append, List.length_cons, sfb_length,
        tlv_length, List.length_nil, true_and, ecdsaSigAlgIdChunk, tlv, ssD]
      all_goals omega

theorem encode_validity_ok {w : CertWriter} {r : CertWriter × Nat}
    (h : w.encode_validity = .ok r) :
    get_validity_size true = .ok validityChunk.length ∧ EncOk w validityChunk r := by
  rw [CertWriter.encode_validity] at h
  simp only [CertWriter.encode_tag_field, exceptBind_ok, exceptPure_def,
    Except.ok.injEq] at h
  obtain ⟨s, hs, a, ha, b, hb, c, hc, d, hd, e, he, f, hf, g, hg, i, hi, hr⟩ := h
  rw [get_validity_size] at hs
  simp only [get_bytes_size, exceptBind_ok, gss_false, exceptPure_def,
    Except.ok.injEq] at hs
  obtain ⟨v1, hv1, v2, hv2, hs⟩ := hs
  obtain ⟨rfl, hb1⟩ := gss_true_ok hv1
  obtain ⟨rfl, hb2⟩ := gss_true_ok hv2
  subst hs
  have e1 := encode_byte_ok ha
  obtain ⟨h65, e2⟩ := encode_size_field_ok hb
  have e3 := encode_byte_ok hc
  obtain ⟨h65b, e4⟩ := encode_size_field_ok hd
  have e5 := encode_bytes_ok he
  have e6 := encode_byte_ok hf
  obtain ⟨h65c, e7⟩ := encode_size_field_ok hg
  have e8 := encode_bytes_ok hi
  constructor
  · rw [get_validity_size]
    simp only [get_bytes_size, gss_true_of_le hb1, gss_true_of_le hb2,
      exceptOk_bind, gss_false, exceptPure_def, exceptBind_ok]
    rw [gss_true_of_le h65]
    rw [validityChunk, tlv_length, List.length_append, tlv_length, tlv_length]
  · refine ((((((((e1.comp e2).comp e3).comp e4).comp e5).comp e6).comp e7).comp e8)).cast ?_ ?_
    · conv_rhs => rw [validityChunk, tlv_eq_cons, List.length_append,
        tlv_length, tlv_length]
      simp [tlv, List.append_assoc]
    · rw [← hr, e1.snd, e2.snd, e3.snd, e4.snd, e5.snd, e6.snd, e7.snd, e8.snd]
      simp only [Prod.mk.injEq, List.length_append, List.length_cons, sfb_length,
        tlv_length, List.length_nil, true_and, validityChunk, tlv, ssD]
      all_goals omega

/-- Bytes emitted by `encode_version`. -/
def versionChunk : List Nat :=
  (CONTEXT_SPECIFIC ||| CONSTRUCTED) ::
    (sizeFieldSpecBytes (intChunk (u64_be_bytes X509_V3)).length ++
      intChunk (u64_be_bytes X509_V3))

theorem encode_version_ok {w : CertWriter} {r : CertWriter × Nat}
    (h : w.encode_version = .ok r) :
    get_version_size true = .ok versionChunk.length ∧ EncOk w versionChunk r := by
  rw [CertWriter.encode_version] at h
  simp only [exceptBind_ok, exceptPure_def, Except.ok.injEq,
    show get_integer_size X509_V3 true = Except.ok 3 from rfl, exists_eq_left'] at h
  obtain ⟨a, ha, b, hb, c, hc, hr⟩ := h
  have e1 := encode_byte_ok ha
  obtain ⟨h65, e2⟩ := encode_size_field_ok hb
  obtain ⟨_, e3⟩ := encode_integer_ok hc
  constructor
  · rw [show get_version_size true = Except.ok 5 from rfl]
    rfl
  · refine (((e1.comp e2).comp e3)).cast ?_ ?_
    · rw [versionChunk]
      rfl
    · rw [← hr, e1.snd, e2.snd, e3.snd]
      rfl

/-- Bytes emitted by `encode_ecdsa_subject_pubkey_info`. -/
def pubkeyInfoChunk (P : DpeProfile) (pk : EcdsaPub) : List Nat :=
  tlv SEQUENCE_TAG (ecPubAlgIdChunk P ++ tlv BIT_STRING_TAG ([0, 4] ++ pk.x ++ pk.y))

theorem encode_ecdsa_subject_pubkey_info_ok {w : CertWriter} {P : DpeProfile}
    {pk : EcdsaPub} {r : CertWriter × Nat}
    (h : w.encode_ecdsa_subject_pubkey_info P pk = .ok r) :
    get_ecdsa_subject_pubkey_info_size P pk true = .ok (pubkeyInfoChunk P pk).length ∧
      EncOk w (pubkeyInfoChunk P pk) r := by
  rw [CertWriter.encode_ecdsa_subject_pubkey_info] at h
  simp only [CertWriter.encode_tag_field, exceptBind_ok, exceptPure_def,
    Except.ok.injEq] at h
  obtain ⟨s1, hs1, s2, hs2, a, ha, b, hb, c, hc, d, hd, e, he, f, hf, g, hg, i, hi,
    j, hj, hr⟩ := h
  obtain ⟨rfl, hbnd1⟩ := gss_true_ok hs1
  obtain ⟨hsz, e3⟩ := encode_ec_pub_alg_id_ok hc
  rw [hs2, Except.ok.injEq] at hsz
  subst hsz
  have e1 := encode_byte_ok ha
  obtain ⟨h65, e2⟩ := encode_size_field_ok hb
  have e4 := encode_byte_ok hd
  obtain ⟨h65b, e5⟩ := encode_size_field_ok he
  have e6 := encode_byte_ok hf
  have e7 := encode_byte_ok hg
  have e8 := encode_bytes_ok hi
  have e9 := encode_bytes_ok hj
  have hlen : ([0, 4] ++ pk.x ++ pk.y).length = 1 + (1 + pk.x.length + pk.y.length) := by
    simp only [List.length_append, List.length_cons, List.length_nil]
    omega
  have hPK : (pubkeyInfoChunk P pk).length =
      ssD ((ecPubAlgIdChunk P).length + ssD (1 + (1 + pk.x.length + pk.y.length))) := by
    rw [pubkeyInfoChunk, tlv_length, List.length_append, tlv_length, hlen]
  rw [Nat.add_comm (ssD (1 + (1 + pk.x.length + pk.y.length)))
    ((ecPubAlgIdChunk P).length)] at e2 h65
  constructor
  · rw [get_ecdsa_subject_pubkey_info_size]
    simp only [gss_true_of_le hbnd1, hs2, exceptOk_bind, gss_false,
      exceptPure_def, exceptBind_ok]
    rw [Nat.add_comm (ssD (1 + (1 + pk.x.length + pk.y.length)))
      ((ecPubAlgIdChunk P).length), gss_true_of_le h65, hPK]
  · refine (((((((((e1.comp e2).comp e3).comp e4).comp e5).comp e6).comp e7).comp e8).comp e9)).cast ?_ ?_
    · conv_rhs => rw [pubkeyInfoChunk, tlv_eq_cons, List.length_append,
        tlv_length, hlen, tlv_eq_cons, hlen]
      simp [tlv, List.append_assoc]
    · rw [← hr, e1.snd, e2.snd, e3.snd, e4.snd, e5.snd, e6.snd, e7.snd, e8.snd,
        e9.snd]
      simp only [Prod.mk.injEq, List.length_append, List.length_cons, sfb_length,
        List.length_nil, true_and, ssD]
      all_goals omega

theorem width_shift (n : Nat) :
    sizeWidthD (1 + ssD n) = sizeWidthD (ssD (1 + n)) := by
  simp only [ssD, sizeWidthD]
  split_ifs <;> omega

theorem one_add_ssD_le {n : Nat} (h : ssD (1 + n) ≤ 65535) : 1 + ssD n ≤ 65535 := by
  simp only [ssD, sizeWidthD] at *
  split_ifs at * <;> omega

/-- Bytes emitted by `encode_ecdsa_signature_bit_string`.  The outer length
field carries the value computed by the source (`get_structure_size(1 +
seq_size, true)`), which is exactly the content length. -/
def sigBitStringChunk (sig : EcdsaSig) : List Nat :=
  BIT_STRING_TAG ::
    (sizeFieldSpecBytes (ssD (1 + ((intChunk sig.r).length + (intChunk sig.s).length))) ++
      (0 :: tlv SEQUENCE_TAG (intChunk sig.r ++ intChunk sig.s)))

theorem encode_ecdsa_signature_bit_string_ok {w : CertWriter} {sig : EcdsaSig}
    {r : CertWriter × Nat}
    (h : w.encode_ecdsa_signature_bit_string sig = .ok r) :
    get_ecdsa_signature_bit_string_size sig true = .ok (sigBitStringChunk sig).length ∧
      EncOk w (sigBitStringChunk sig) r := by
  rw [CertWriter.encode_ecdsa_signature_bit_string] at h
  simp only [CertWriter.encode_tag_field, exceptBind_ok, exceptPure_def,
    Except.ok.injEq] at h
  obtain ⟨r1, hr1, r2, hr2, a, ha, s, hs, b, hb, c, hc, d, hd, e, he, f, hf,
    g, hg, hrr⟩ := h
  obtain ⟨hszr, e6⟩ := encode_integer_bytes_ok hf
  obtain ⟨hszs, e7⟩ := encode_integer_bytes_ok hg
  rw [hr1, Except.ok.injEq] at hszr
  rw [hr2, Except.ok.injEq] at hszs
  subst hszr
  subst hszs
  obtain ⟨rfl, hbnds⟩ := gss_true_ok hs
  have e1 := encode_byte_ok ha
  obtain ⟨h65, e2⟩ := encode_size_field_ok hb
  have e3 := encode_byte_ok hc
  have e4 := encode_byte_ok hd
  obtain ⟨h65seq, e5⟩ := encode_size_field_ok he
  have hCH : (sigBitStringChunk sig).length =
      ssD (1 + ssD ((intChunk sig.r).length + (intChunk sig.s).length)) := by
    rw [sigBitStringChunk]
    simp only [List.length_cons, List.length_append, sfb_length, tlv_length]
    conv_rhs => rw [ssD]
    rw [← width_shift]
    simp only [ssD]
    omega
  constructor
  · rw [get_ecdsa_signature_bit_string_size]
    simp only [hr1, hr2, exceptOk_bind, gss_true_of_le h65seq, exceptPure_def,
      exceptBind_ok]
    rw [gss_true_of_le (show 1 + ssD ((intChunk sig.r).length + (intChunk sig.s).length)
      ≤ 65535 from one_add_ssD_le h65), hCH]
  · refine (((((((e1.comp e2).comp e3).comp e4).comp e5).comp e6).comp e7)).cast ?_ ?_
    · conv_rhs => rw [sigBitStringChunk, tlv_eq_cons, List.length_append]
      simp [List.append_assoc]
    · rw [← hrr, e1.snd, e2.snd, e3.snd, e4.snd, e5.snd, e6.snd, e7.snd]
      simp only [Prod.mk.injEq, List.length_append, List.length_cons, sfb_length,
        List.length_nil, true_and]
      all_goals omega

theorem ssD_def (x : Nat) : ssD x = 1 + sizeWidthD x + x := rfl

theorem rdnStringChunk_length (s : DirectoryString) :
    (rdnStringChunk s).length = ssD s.bytes.length := by
  cases s <;>
    simp [rdnStringChunk, tlv_length, DirectoryString.bytes]

/-- Bytes emitted by `encode_rdn`: a SEQUENCE OF holding exactly two
single-element SETs, commonName first and serialNumber second, each a
SEQUENCE of the attribute OID and the directory string. -/
def rdnChunk (name : Name) : List Nat :=
  SEQUENCE_OF_TAG ::
    (sizeFieldSpecBytes
        (ssD (ssD (ssD RDN_COMMON_NAME_OID.length + ssD name.cn.bytes.length)) +
         ssD (ssD (ssD RDN_SERIALNUMBER_OID.length + ssD name.serial.bytes.length))) ++
      (SET_OF_TAG ::
        (sizeFieldSpecBytes (ssD (ssD RDN_COMMON_NAME_OID.length + ssD name.cn.bytes.length)) ++
          (SEQUENCE_TAG ::
            (sizeFieldSpecBytes (ssD RDN_COMMON_NAME_OID.length + ssD name.cn.bytes.length) ++
              (tlv OID_TAG RDN_COMMON_NAME_OID ++ rdnStringChunk name.cn)))) ++
      (SET_OF_TAG ::
        (sizeFieldSpecBytes (ssD (ssD RDN_SERIALNUMBER_OID.length + ssD name.serial.bytes.length)) ++
          (SEQUENCE_TAG ::
            (sizeFieldSpecBytes (ssD RDN_SERIALNUMBER_OID.length + ssD name.serial.bytes.length) ++
              (tlv OID_TAG RDN_SERIALNUMBER_OID ++ rdnStringChunk name.serial)))))))

theorem rdnChunk_length (name : Name) :
    (rdnChunk name).length =
      ssD (ssD (ssD (ssD RDN_COMMON_NAME_OID.length + ssD name.cn.bytes.length)) +
           ssD (ssD (ssD RDN_SERIALNUMBER_OID.length + ssD name.serial.bytes.length))) := by
  rw [rdnChunk]
  simp only [List.length_cons, List.length_append, sfb_length, tlv_length,
    rdnStringChunk_length]
  generalize ssD RDN_COMMON_NAME_OID.length + ssD name.cn.bytes.length = U
  generalize ssD RDN_SERIALNUMBER_OID.length + ssD name.serial.bytes.length = V
  simp only [ssD_def]
  omega

theorem encode_rdn_ok {w : CertWriter} {name : Name} {r : CertWriter × Nat}
    (h : w.encode_rdn name = .ok r) :
    get_rdn_size name true = .ok (rdnChunk name).length ∧
      EncOk w (rdnChunk name) r := by
  rw [CertWriter.encode_rdn] at h
  simp only [CertWriter.encode_tag_field, DirectoryString.len, exceptBind_ok,
    exceptPure_def, Except.ok.injEq] at h
  obtain ⟨c1, hc1, c2, hc2, s1, hs1, s2, hs2, ns, hns, ss2, hss2, q1, hq1,
    q2, hq2, a, ha, b, hb, c, hc, d, hd, e, he, f, hf, g, hg, a8, ha8, i, hi,
    j, hj, k, hk, l, hl, m, hm, n, hn, hr⟩ := h
  obtain ⟨rfl, hbc1⟩ := gss_true_ok hc1
  obtain ⟨rfl, hbc2⟩ := gss_true_ok hc2
  obtain ⟨rfl, hbs1⟩ := gss_true_ok hs1
  obtain ⟨rfl, hbs2⟩ := gss_true_ok hs2
  obtain ⟨rfl, hbns⟩ := gss_true_ok hns
  obtain ⟨rfl, hbss2⟩ := gss_true_ok hss2
  obtain ⟨rfl, hbq1⟩ := gss_true_ok hq1
  obtain ⟨rfl, hbq2⟩ := gss_true_ok hq2
  have e1 := encode_byte_ok ha
  obtain ⟨h65a, e2⟩ := encode_size_field_ok hb
  have e3 := encode_byte_ok hc
  obtain ⟨h65b, e4⟩ := encode_size_field_ok hd
  have e5 := encode_byte_ok he
  obtain ⟨h65c, e6⟩ := encode_size_field_ok hf
  obtain ⟨hszCN, e7⟩ := encode_oid_ok hg
  obtain ⟨hszcn, e8⟩ := encode_rdn_string_ok ha8
  have e9 := encode_byte_ok hi
  obtain ⟨h65d, e10⟩ := encode_size_field_ok hj
  have e11 := encode_byte_ok hk
  obtain ⟨h65e, e12⟩ := encode_size_field_ok hl
  obtain ⟨hszSER, e13⟩ := encode_oid_ok hm
  obtain ⟨hszser, e14⟩ := encode_rdn_string_ok hn
  have hS2C : (RDN_SERIALNUMBER_OID.length : Nat) = RDN_COMMON_NAME_OID.length := rfl
  constructor
  · rw [get_rdn_size]
    rw [hS2C] at h65e h65d h65a
    simp only [get_bytes_size, exceptOk_bind, exceptPure_def, exceptBind_ok,
      gss_true_of_le hbc1, gss_true_of_le hbc2, gss_true_of_le hbs2,
      gss_true_of_le h65c, gss_true_of_le h65e, gss_true_of_le h65b,
      gss_true_of_le h65d, gss_true_of_le h65a]
    rw [rdnChunk_length, hS2C]
  · refine ((((((((((((((e1.comp e2).comp e3).comp e4).comp e5).comp e6).comp e7).comp e8).comp e9).comp e10).comp e11).comp e12).comp e13).comp e14)).cast ?_ ?_
    · unfold rdnChunk
      simp only [List.append_assoc, List.cons_append, List.nil_append]
    · rw [← hr, e1.snd, e2.snd, e3.snd, e4.snd, e5.snd, e6.snd, e7.snd, e8.snd,
        e9.snd, e10.snd, e11.snd, e12.snd, e13.snd, e14.snd]
      simp only [Prod.mk.injEq, List.length_append, List.length_cons, sfb_length,
        tlv_length, rdnStringChunk_length, List.length_nil, true_and]
      all_goals omega

theorem u32_be_len (n : Nat) : (u32_be_bytes n).length = 4 := rfl

/-- Bytes emitted by `encode_fwid`. -/
def fwidChunk (P : DpeProfile) (d : List Nat) : List Nat :=
  tlv SEQUENCE_TAG (tlv OID_TAG (HASH_OID P) ++ tlv OCTET_STRING_TAG d)

theorem fwidChunk_length (P : DpeProfile) (d : List Nat) :
    (fwidChunk P d).length = ssD (ssD (HASH_OID P).length + ssD d.length) := by
  rw [fwidChunk, tlv_length, List.length_append, tlv_length, tlv_length]

theorem encode_fwid_ok {w : CertWriter} {P : DpeProfile} {tci : TciMeasurement}
    {r : CertWriter × Nat} (h : w.encode_fwid P tci = .ok r) :
    get_fwid_size P tci.bytes true = .ok (fwidChunk P tci.bytes).length ∧
      EncOk w (fwidChunk P tci.bytes) r := by
  rw [CertWriter.encode_fwid] at h
  simp only [exceptBind_ok, exceptPure_def, Except.ok.injEq] at h
  obtain ⟨a, ha, s, hs, b, hb, c, hc, d, hd, e, he, f, hf, g, hg, i, hi, hr⟩ := h
  rw [get_fwid_size] at hs
  simp only [exceptBind_ok, gss_false, exceptPure_def, Except.ok.injEq] at hs
  obtain ⟨v1, hv1, v2, hv2, hs⟩ := hs
  obtain ⟨rfl, hb1⟩ := gss_true_ok hv1
  obtain ⟨rfl, hb2⟩ := gss_true_ok hv2
  subst hs
  have e1 := encode_byte_ok ha
  obtain ⟨h65, e2⟩ := encode_size_field_ok hb
  have e3 := encode_byte_ok hc
  obtain ⟨h65b, e4⟩ := encode_size_field_ok hd
  have e5 := encode_bytes_ok he
  have e6 := encode_byte_ok hf
  obtain ⟨h65c, e7⟩ := encode_size_field_ok hg
  have e8 := encode_bytes_ok hi
  constructor
  · rw [get_fwid_size]
    simp only [gss_true_of_le hb1, gss_true_of_le hb2, exceptOk_bind, gss_false,
      exceptPure_def, exceptBind_ok]
    rw [gss_true_of_le h65, fwidChunk_length]
  · refine ((((((((e1.comp e2).comp e3).comp e4).comp e5).comp e6).comp e7).comp e8)).cast ?_ ?_
    · conv_rhs => rw [fwidChunk, tlv_eq_cons, List.length_append, tlv_length,
        tlv_length]
      simp [tlv, List.append_assoc]
    · rw [← hr, e1.snd, e2.snd, e3.snd, e4.snd, e5.snd, e6.snd, e7.snd, e8.snd]
      simp only [Prod.mk.injEq, List.length_append, List.length_cons, sfb_length,
        tlv_length, List.length_nil, true_and, fwidChunk, tlv, ssD_def]
      all_goals omega

/-- Bytes emitted by `encode_tcb_info`.  Note that the length field of the
implicitly tagged `fwids` field is computed from the current-measurement FWID
size (doubled when cumulative measurements are supported), exactly as the
source does. -/
def tcbInfoChunk (P : DpeProfile) (node : TciNodeData) (ext : Bool) : List Nat :=
  SEQUENCE_TAG ::
    (sizeFieldSpecBytes
        (ssD ((fwidChunk P node.tci_current.bytes).length +
              (if ext then (fwidChunk P node.tci_cumulative.bytes).length else 0)) +
          2 * ssD 4) ++
      ((CONTEXT_SPECIFIC ||| CONSTRUCTED ||| 0x06) ::
        (sizeFieldSpecBytes
            (if ext then (fwidChunk P node.tci_current.bytes).length * 2
             else (fwidChunk P node.tci_current.bytes).length) ++
          (fwidChunk P node.tci_current.bytes ++
            ((if ext then fwidChunk P node.tci_cumulative.bytes else []) ++
              ((CONTEXT_SPECIFIC ||| 0x08) ::
                (sizeFieldSpecBytes 4 ++
                  (u32_be_bytes node.locality ++
                    ((CONTEXT_SPECIFIC ||| 0x09) ::
                      (sizeFieldSpecBytes 4 ++ u32_be_bytes node.tci_type))))))))))

theorem tcbInfoChunk_length (P : DpeProfile) (node : TciNodeData) (ext : Bool)
    (hcc : node.tci_cumulative.bytes.length = node.tci_current.bytes.length) :
    (tcbInfoChunk P node ext).length =
      ssD (ssD ((fwidChunk P node.tci_current.bytes).length +
            (if ext then (fwidChunk P node.tci_cumulative.bytes).length else 0)) +
          2 * ssD 4) := by
  have hFF : (fwidChunk P node.tci_cumulative.bytes).length =
      (fwidChunk P node.tci_current.bytes).length := by
    rw [fwidChunk_length, fwidChunk_length, hcc]
  cases ext
  · simp only [tcbInfoChunk, Bool.false_eq_true, if_false, List.length_cons,
      List.length_append, sfb_length, List.length_nil, u32_be_len, Nat.add_zero]
    generalize (fwidChunk P node.tci_current.bytes).length = F
    simp only [ssD_def]
    omega
  · simp only [tcbInfoChunk, if_true, List.length_cons, List.length_append,
      sfb_length, List.length_nil, u32_be_len, hFF]
    generalize (fwidChunk P node.tci_current.bytes).length = F
    rw [Nat.mul_two]
    simp only [ssD_def]
    omega

theorem encode_tcb_info_ok {w : CertWriter} {P : DpeProfile} {node : TciNodeData}
    {ext : Bool} {r : CertWriter × Nat}
    (hcc : node.tci_cumulative.bytes.length = node.tci_current.bytes.length)
    (h : w.encode_tcb_info P node ext = .ok r) :
    get_tcb_info_size P node ext true = .ok (tcbInfoChunk P node ext).length ∧
      EncOk w (tcbInfoChunk P node ext) r := by
  have hFF : (fwidChunk P node.tci_cumulative.bytes).length =
      (fwidChunk P node.tci_current.bytes).length := by
    rw [fwidChunk_length, fwidChunk_length, hcc]
  cases ext
  · rw [CertWriter.encode_tcb_info] at h
    simp only [Bool.false_eq_true, if_false, exceptBind_ok, exceptPure_def,
      Except.ok.injEq, exists_eq_left'] at h
    obtain ⟨ts, hts, a, ha, b, hb, fs, hfs, c, hc, d, hd, e, he, g, hg,
      h2, hh2, i, hi, j, hj, k, hk, l, hl, hr⟩ := h
    rw [get_tcb_info_size] at hts
    simp only [Bool.false_eq_true, if_false, exceptBind_ok, gss_false,
      exceptPure_def, Except.ok.injEq, exists_eq_left'] at hts
    obtain ⟨v0, hv0, vf, hvf, vv, hvv, hts⟩ := hts
    obtain ⟨hszf, e5⟩ := encode_fwid_ok he
    rw [hv0, Except.ok.injEq] at hszf
    subst hszf
    rw [hfs, Except.ok.injEq] at hv0
    subst hv0
    obtain ⟨rfl, hbvf⟩ := gss_true_ok hvf
    obtain ⟨rfl, hbvv⟩ := gss_true_ok hvv
    subst hts
    have e1 := encode_byte_ok ha
    obtain ⟨h65, e2⟩ := encode_size_field_ok hb
    have e3 := encode_byte_ok hc
    obtain ⟨h65b, e4⟩ := encode_size_field_ok hd
    have e6 := encode_byte_ok hg
    obtain ⟨h65c, e7⟩ := encode_size_field_ok hh2
    have e8 := encode_bytes_ok hi
    have e9 := encode_byte_ok hj
    obtain ⟨h65d, e10⟩ := encode_size_field_ok hk
    have e11 := encode_bytes_ok hl
    constructor
    · rw [get_tcb_info_size]
      simp only [Bool.false_eq_true, if_false, exceptOk_bind, hfs, gss_false,
        gss_true_of_le hbvf, gss_true_of_le hbvv, exceptPure_def, exceptBind_ok]
      rw [gss_true_of_le h65, tcbInfoChunk_length P node false hcc]
      simp only [Bool.false_eq_true, if_false]
    · refine (((((((((((e1.comp e2).comp e3).comp e4).comp e5).comp e6).comp e7).comp e8).comp e9).comp e10).comp e11)).cast ?_ ?_
      · unfold tcbInfoChunk
        simp only [Bool.false_eq_true, if_false, List.append_assoc,
          List.cons_append, List.nil_append, u32_be_len]
      · rw [← hr, e1.snd, e2.snd, e3.snd, e4.snd, e5.snd, e6.snd, e7.snd, e8.snd,
          e9.snd, e10.snd, e11.snd]
        simp only [Prod.mk.injEq, List.length_append,
          List.length_cons, sfb_length, List.length_nil, u32_be_len, true_and]
        all_goals omega
  · rw [CertWriter.encode_tcb_info] at h
    simp only [if_true, exceptBind_ok, exceptPure_def,
      Except.ok.injEq, exists_eq_left'] at h
    obtain ⟨ts, hts, a, ha, b, hb, fs, hfs, c, hc, d, hd, e, he, f, hf, g, hg,
      h2, hh2, i, hi, j, hj, k, hk, l, hl, hr⟩ := h
    rw [get_tcb_info_size] at hts
    simp only [if_true, exceptBind_ok, gss_false,
      exceptPure_def, Except.ok.injEq, exists_eq_left'] at hts
    obtain ⟨v0, hv0, v1, hv1, vf, hvf, vv, hvv, hts⟩ := hts
    obtain ⟨hszf, e5⟩ := encode_fwid_ok he
    obtain ⟨hszf2, e6⟩ := encode_fwid_ok hf
    rw [hv0, Except.ok.injEq] at hszf
    subst hszf
    rw [hv1, Except.ok.injEq] at hszf2
    subst hszf2
    rw [hfs, Except.ok.injEq] at hv0
    subst hv0
    obtain ⟨rfl, hbvf⟩ := gss_true_ok hvf
    obtain ⟨rfl, hbvv⟩ := gss_true_ok hvv
    subst hts
    have e1 := encode_byte_ok ha
    obtain ⟨h65, e2⟩ := encode_size_field_ok hb
    have e3 := encode_byte_ok hc
    obtain ⟨h65b, e4⟩ := encode_size_field_ok hd
    have e7 := encode_byte_ok hg
    obtain ⟨h65c, e8⟩ := encode_size_field_ok hh2
    have e9 := encode_bytes_ok hi
    have e10 := encode_byte_ok hj
    obtain ⟨h65d, e11⟩ := encode_size_field_ok hk
    have e12 := encode_bytes_ok hl
    constructor
    · rw [get_tcb_info_size]
      simp only [if_true, exceptOk_bind, hfs, hv1, gss_false,
        gss_true_of_le hbvf, gss_true_of_le hbvv, exceptPure_def, exceptBind_ok]
      rw [gss_true_of_le h65, tcbInfoChunk_length P node true hcc]
      simp only [if_true]
    · refine ((((((((((((e1.comp e2).comp e3).comp e4).comp e5).comp e6).comp e7).comp e8).comp e9).comp e10).comp e11).comp e12)).cast ?_ ?_
      · unfold tcbInfoChunk
        simp only [if_true, List.append_assoc,
          List.cons_append, List.nil_append, u32_be_len]
      · rw [← hr, e1.snd, e2.snd, e3.snd, e4.snd, e5.snd, e6.snd, e7.snd, e8.snd,
          e9.snd, e10.snd, e11.snd, e12.snd]
        simp only [Prod.mk.injEq, List.length_append,
          List.length_cons, sfb_length, List.length_nil, u32_be_len, true_and]
        all_goals omega

theorem EncOk.next_bound {w : CertWriter} {bytes : List Nat} {r : CertWriter × Nat}
    (h : EncOk w bytes r) : r.1.offset ≤ r.1.certificate.length := by
  obtain ⟨hb, rfl⟩ := h
  simpa [writeAt_length hb] using hb

/-- In the Rust source every TCI measurement is a fixed-size array
(`[u8; DPE_PROFILE.get_tci_size()]`), so all current and cumulative digests of
all nodes share one length.  This well-formedness predicate captures that
type-level invariant of the source, which the shallow embedding's plain lists
cannot enforce. -/
def nodesUniform (nodes : List TciNodeData) : Prop :=
  ∃ hs : Nat, ∀ node ∈ nodes, node.tci_current.bytes.length = hs ∧
    node.tci_cumulative.bytes.length = hs

/-- Concatenation of the DER chunks of a list of TcbInfos. -/
def tcbListChunk (P : DpeProfile) (nodes : List TciNodeData) (ext : Bool) :
    List Nat :=
  match nodes with
  | [] => []
  | node :: rest => tcbInfoChunk P node ext ++ tcbListChunk P rest ext

theorem encode_tcb_info_list_ok {w : CertWriter} {P : DpeProfile}
    {nodes : List TciNodeData} {ext : Bool} {r : CertWriter × Nat}
    (hcc : ∀ node ∈ nodes,
      node.tci_cumulative.bytes.length = node.tci_current.bytes.length)
    (hw : w.offset ≤ w.certificate.length)
    (h : w.encode_tcb_info_list P nodes ext = .ok r) :
    EncOk w (tcbListChunk P nodes ext) r := by
  induction nodes generalizing w r with
  | nil =>
    rw [CertWriter.encode_tcb_info_list] at h
    simp only [exceptPure_def, Except.ok.injEq] at h
    exact (EncOk.nil hw).cast rfl h.symm
  | cons node rest ih =>
    rw [CertWriter.encode_tcb_info_list] at h
    simp only [exceptBind_ok, exceptPure_def, Except.ok.injEq] at h
    obtain ⟨a, ha, b, hb, hr⟩ := h
    obtain ⟨-, ea⟩ := encode_tcb_info_ok (hcc node (List.mem_cons_self node rest)) ha
    have eb := ih (fun n hn => hcc n (List.mem_cons_of_mem _ hn)) ea.next_bound hb
    refine (ea.comp eb).cast rfl ?_
    rw [← hr, ea.snd, eb.snd]
    show (b.1, _) = (b.1, (tcbInfoChunk P node ext ++ tcbListChunk P rest ext).length)
    simp [List.length_append]

theorem get_fwid_size_ok_val {P : DpeProfile} {digest : List Nat} {t : Nat}
    (h : get_fwid_size P digest true = .ok t) :
    t = (fwidChunk P digest).length := by
  rw [get_fwid_size] at h
  simp only [exceptBind_ok] at h
  obtain ⟨a, ha, b, hb, ht⟩ := h
  obtain ⟨rfl, -⟩ := gss_true_ok ha
  obtain ⟨rfl, -⟩ := gss_true_ok hb
  obtain ⟨rfl, -⟩ := gss_true_ok ht
  rw [fwidChunk_length]

theorem get_tcb_info_size_ok_val {P : DpeProfile} {node : TciNodeData}
    {ext : Bool} {t : Nat}
    (hcc : node.tci_cumulative.bytes.length = node.tci_current.bytes.length)
    (h : get_tcb_info_size P node ext true = .ok t) :
    t = (tcbInfoChunk P node ext).length := by
  rw [get_tcb_info_size] at h
  cases ext
  · simp only [Bool.false_eq_true, if_false, exceptBind_ok, exceptPure_def,
      Except.ok.injEq, exists_eq_left'] at h
    obtain ⟨v0, hv0, vf, hvf, vv, hvv, ht⟩ := h
    have hval := get_fwid_size_ok_val hv0
    subst hval
    obtain ⟨rfl, -⟩ := gss_true_ok hvf
    obtain ⟨rfl, -⟩ := gss_true_ok hvv
    obtain ⟨rfl, -⟩ := gss_true_ok ht
    rw [tcbInfoChunk_length P node false hcc]
    simp only [Bool.false_eq_true, if_false]
  · simp only [if_true, exceptBind_ok, exceptPure_def, Except.ok.injEq,
      exists_eq_left'] at h
    obtain ⟨v0, hv0, v1, hv1, vf, hvf, vv, hvv, ht⟩ := h
    have hval := get_fwid_size_ok_val hv0
    subst hval
    have hval1 := get_fwid_size_ok_val hv1
    subst hval1
    obtain ⟨rfl, -⟩ := gss_true_ok hvf
    obtain ⟨rfl, -⟩ := gss_true_ok hvv
    obtain ⟨rfl, -⟩ := gss_true_ok ht
    rw [tcbInfoChunk_length P node true hcc]
    simp only [if_true]

theorem tcbInfoChunk_length_congr {P : DpeProfile} {node node' : TciNodeData}
    {ext : Bool}
    (h1 : node.tci_current.bytes.length = node'.tci_current.bytes.length)
    (h2 : node.tci_cumulative.bytes.length = node'.tci_cumulative.bytes.length) :
    (tcbInfoChunk P node ext).length = (tcbInfoChunk P node' ext).length := by
  cases ext <;>
    simp only [tcbInfoChunk, Bool.false_eq_true, if_false, if_true,
      List.length_cons, List.length_append, sfb_length, List.length_nil,
      u32_be_len, fwidChunk_length, h1, h2]

theorem tcbListChunk_length_of_const {P : DpeProfile} {ext : Bool}
    {nodes : List TciNodeData} {L : Nat}
    (h : ∀ node ∈ nodes, (tcbInfoChunk P node ext).length = L) :
    (tcbListChunk P nodes ext).length = nodes.length * L := by
  induction nodes with
  | nil => simp [tcbListChunk]
  | cons n rest ih =>
    show (tcbInfoChunk P n ext ++ tcbListChunk P rest ext).length = _
    rw [List.length_append, h n (List.mem_cons_self n rest),
      ih (fun m hm => h m (List.mem_cons_of_mem _ hm)), List.length_cons,
      Nat.succ_mul]
    omega

def multiTcbInfoChunk (P : DpeProfile) (m : MeasurementData) (crit : Bool) :
    List Nat :=
  match m.tci_nodes with
  | [] => []
  | node0 :: _ =>
    SEQUENCE_TAG ::
      (sizeFieldSpecBytes
          (ssD MULTI_TCBINFO_OID.length + ssD 1 +
            ssD (ssD (m.tci_nodes.length *
              (tcbInfoChunk P node0 m.supports_extend_tci).length))) ++
        (tlv OID_TAG MULTI_TCBINFO_OID ++
          (BOOL_TAG ::
            (sizeFieldSpecBytes BOOL_SIZE ++
              ((if crit then 0xFF else 0x00) ::
                (OCTET_STRING_TAG ::
                  (sizeFieldSpecBytes
                      (ssD ((tcbInfoChunk P node0 m.supports_extend_tci).length *
                        m.tci_nodes.length)) ++
                    (SEQUENCE_OF_TAG ::
                      (sizeFieldSpecBytes
                          ((tcbInfoChunk P node0 m.supports_extend_tci).length *
                            m.tci_nodes.length) ++
                        tcbListChunk P m.tci_nodes m.supports_extend_tci)))))))))

theorem multiTcbInfoChunk_cons {P : DpeProfile} {m : MeasurementData}
    {crit : Bool} {node0 : TciNodeData} {rest : List TciNodeData}
    (hnodes : m.tci_nodes = node0 :: rest) :
    multiTcbInfoChunk P m crit =
      SEQUENCE_TAG ::
        (sizeFieldSpecBytes
            (ssD MULTI_TCBINFO_OID.length + ssD 1 +
              ssD (ssD ((node0 :: rest).length *
                (tcbInfoChunk P node0 m.supports_extend_tci).length))) ++
          (tlv OID_TAG MULTI_TCBINFO_OID ++
            (BOOL_TAG ::
              (sizeFieldSpecBytes BOOL_SIZE ++
                ((if crit then 0xFF else 0x00) ::
                  (OCTET_STRING_TAG ::
                    (sizeFieldSpecBytes
                        (ssD ((tcbInfoChunk P node0 m.supports_extend_tci).length *
                          (node0 :: rest).length)) ++
                      (SEQUENCE_OF_TAG ::
                        (sizeFieldSpecBytes
                            ((tcbInfoChunk P node0 m.supports_extend_tci).length *
                              (node0 :: rest).length) ++
                          tcbListChunk P (node0 :: rest)
                            m.supports_extend_tci))))))))) := by
  unfold multiTcbInfoChunk
  rw [hnodes]

theorem encode_multi_tcb_info_ok {w : CertWriter} {P : DpeProfile}
    {m : MeasurementData} {r : CertWriter × Nat}
    (hu : nodesUniform m.tci_nodes)
    (h : w.encode_multi_tcb_info P m = .ok r) :
    get_multi_tcb_info_size P m true =
        .ok (multiTcbInfoChunk P m w.crit_dice).length ∧
      EncOk w (multiTcbInfoChunk P m w.crit_dice) r := by
  rcases hnodes : m.tci_nodes with _ | ⟨node0, rest⟩
  · rw [CertWriter.encode_multi_tcb_info, get_multi_tcb_info_size, hnodes] at h
    simp [exceptBind_ok] at h
  · obtain ⟨hs, hu⟩ := hu
    rw [hnodes] at hu
    have h0 : node0 ∈ node0 :: rest := List.mem_cons_self node0 rest
    have hccs : ∀ node ∈ node0 :: rest,
        node.tci_cumulative.bytes.length = node.tci_current.bytes.length :=
      fun n hn => ((hu n hn).2).trans ((hu n hn).1).symm
    have hLs : ∀ node ∈ node0 :: rest,
        (tcbInfoChunk P node m.supports_extend_tci).length =
          (tcbInfoChunk P node0 m.supports_extend_tci).length :=
      fun n hn => tcbInfoChunk_length_congr
        (((hu n hn).1).trans ((hu node0 h0).1).symm)
        (((hu n hn).2).trans ((hu node0 h0).2).symm)
    rw [CertWriter.encode_multi_tcb_info, hnodes] at h
    simp only [exceptBind_ok, exceptPure_def, Except.ok.injEq,
      exists_eq_left'] at h
    obtain ⟨M, hM, a, ha, b, hb, c, hc, d, hd, e, he, f, hf, t, ht, g, hg,
      s, hsz, h8, hh8, i, hi, j, hj, k, hk, hr⟩ := h
    have htv := get_tcb_info_size_ok_val (hccs node0 h0) ht
    subst htv
    rw [get_multi_tcb_info_size, hnodes] at hM
    simp only [ht, exceptOk_bind, exceptBind_ok, Except.ok.injEq,
      exists_eq_left'] at hM
    obtain ⟨mz, hmz, ma, hma, mb, hmb, mc, hmc, hMv⟩ := hM
    obtain ⟨rfl, hbmz⟩ := gss_true_ok hmz
    obtain ⟨rfl, hbma⟩ := gss_true_ok hma
    obtain ⟨rfl, hbmb⟩ := gss_true_ok hmb
    obtain ⟨rfl, hbmc⟩ := gss_true_ok hmc
    rw [gss_false, Except.ok.injEq] at hMv
    subst hMv
    obtain ⟨rfl, hbsz⟩ := gss_true_ok hsz
    have e1 := encode_byte_ok ha
    obtain ⟨h65M, e2⟩ := encode_size_field_ok hb
    obtain ⟨-, e3⟩ := encode_oid_ok hc
    have e4 := encode_byte_ok hd
    obtain ⟨h65B, e5⟩ := encode_size_field_ok he
    have e6 := encode_byte_ok hf
    have e7 := encode_byte_ok hg
    obtain ⟨h65s, e8⟩ := encode_size_field_ok hh8
    have e9 := encode_byte_ok hi
    obtain ⟨h65T, e10⟩ := encode_size_field_ok hj
    have e11 := encode_tcb_info_list_ok hccs e10.next_bound hk
    have hc1 : c.1.crit_dice = w.crit_dice :=
      (e3.fst_crit).trans ((e2.fst_crit).trans (e1.fst_crit))
    rw [hc1] at e6
    have hlist := tcbListChunk_length_of_const (P := P) hLs
    constructor
    · rw [get_multi_tcb_info_size, hnodes]
      simp only [ht, exceptOk_bind, hmz, hma, hmb, hmc, exceptPure_def,
        exceptBind_ok]
      rw [gss_true_of_le h65M, multiTcbInfoChunk_cons hnodes]
      simp only [List.length_cons, List.length_append, sfb_length, tlv_length,
        List.length_nil, hlist, BOOL_SIZE]
      simp only [Except.ok.injEq]
      rw [Nat.mul_comm (tcbInfoChunk P node0 m.supports_extend_tci).length
        (rest.length + 1)]
      simp only [ssD_def]
      omega
    · refine ((((((((((e1.comp e2).comp e3).comp e4).comp e5).comp e6).comp e7).comp e8).comp e9).comp e10).comp e11).cast ?_ ?_
      · rw [multiTcbInfoChunk_cons hnodes]
        simp only [List.append_assoc, List.cons_append, List.nil_append]
      · rw [← hr, e1.snd, e2.snd, e3.snd, e4.snd, e5.snd, e6.snd, e7.snd,
          e8.snd, e9.snd, e10.snd, e11.snd]
        simp only [Prod.mk.injEq, List.length_append, List.length_cons,
          sfb_length, tlv_length, List.length_nil, hlist, true_and]
        all_goals omega

def ueidChunk (m : MeasurementData) (crit : Bool) : List Nat :=
  SEQUENCE_TAG ::
    (sizeFieldSpecBytes
        (ssD UEID_OID.length + ssD 1 + ssD (ssD (ssD m.label.length))) ++
      (tlv OID_TAG UEID_OID ++
        (BOOL_TAG ::
          (sizeFieldSpecBytes BOOL_SIZE ++
            ((if crit then 0xFF else 0x00) ::
              (OCTET_STRING_TAG ::
                (sizeFieldSpecBytes (ssD (ssD m.label.length)) ++
                  (SEQUENCE_TAG ::
                    (sizeFieldSpecBytes (ssD m.label.length) ++
                      (OCTET_STRING_TAG ::
                        (sizeFieldSpecBytes m.label.length ++
                          m.label)))))))))))

theorem encode_ueid_ok {w : CertWriter} {m : MeasurementData}
    {r : CertWriter × Nat} (h : w.encode_ueid m = .ok r) :
    get_ueid_size m true = .ok (ueidChunk m w.crit_dice).length ∧
      EncOk w (ueidChunk m w.crit_dice) r := by
  rw [CertWriter.encode_ueid] at h
  simp only [exceptBind_ok, exceptPure_def, gss_false, Except.ok.injEq,
    exists_eq_left'] at h
  obtain ⟨U, hU, a, ha, b, hb, c, hc, d, hd, e, he, f, hf, g, hg, s1, hs1,
    s2, hs2, h8, hh8, i, hi, s3, hs3, j, hj, k, hk, l, hl, mm, hm, hr⟩ := h
  rw [get_ueid_size] at hU
  simp only [exceptBind_ok, gss_false, Except.ok.injEq, exists_eq_left'] at hU
  obtain ⟨u1, hu1, u2, hu2, ua, hua, ub, hub, uc, huc, hUv⟩ := hU
  obtain ⟨rfl, hbu1⟩ := gss_true_ok hu1
  obtain ⟨rfl, hbu2⟩ := gss_true_ok hu2
  obtain ⟨rfl, hbua⟩ := gss_true_ok hua
  obtain ⟨rfl, hbub⟩ := gss_true_ok hub
  obtain ⟨rfl, hbuc⟩ := gss_true_ok huc
  subst hUv
  obtain ⟨rfl, hbs1⟩ := gss_true_ok hs1
  obtain ⟨rfl, hbs2⟩ := gss_true_ok hs2
  obtain ⟨rfl, hbs3⟩ := gss_true_ok hs3
  have e1 := encode_byte_ok ha
  obtain ⟨h65U, e2⟩ := encode_size_field_ok hb
  obtain ⟨-, e3⟩ := encode_oid_ok hc
  have e4 := encode_byte_ok hd
  obtain ⟨h65B, e5⟩ := encode_size_field_ok he
  have e6 := encode_byte_ok hf
  have e7 := encode_byte_ok hg
  obtain ⟨h65s2, e8⟩ := encode_size_field_ok hh8
  have e9 := encode_byte_ok hi
  obtain ⟨h65s3, e10⟩ := encode_size_field_ok hj
  have e11 := encode_byte_ok hk
  obtain ⟨h65lab, e12⟩ := encode_size_field_ok hl
  have e13 := encode_bytes_ok hm
  have hc1 : c.1.crit_dice = w.crit_dice :=
    (e3.fst_crit).trans ((e2.fst_crit).trans (e1.fst_crit))
  rw [hc1] at e6
  constructor
  · rw [get_ueid_size]
    simp only [gss_true_of_le hbu1, gss_true_of_le hbu2, gss_true_of_le hbua,
      gss_true_of_le hbub, gss_true_of_le hbuc, exceptOk_bind, gss_false,
      exceptBind_ok]
    rw [gss_true_of_le h65U]
    simp only [ueidChunk, Except.ok.injEq, List.length_cons, List.length_append,
      sfb_length, tlv_length, List.length_nil, BOOL_SIZE]
    generalize m.label.length = lab
    simp only [ssD_def]
    omega
  · refine ((((((((((((e1.comp e2).comp e3).comp e4).comp e5).comp e6).comp e7).comp e8).comp e9).comp e10).comp e11).comp e12).comp e13).cast ?_ ?_
    · simp only [ueidChunk, List.append_assoc, List.cons_append,
        List.nil_append]
    · rw [← hr, e1.snd, e2.snd, e3.snd, e4.snd, e5.snd, e6.snd, e7.snd, e8.snd,
        e9.snd, e10.snd, e11.snd, e12.snd, e13.snd]
      simp only [ueidChunk, Prod.mk.injEq, List.length_append, List.length_cons,
        sfb_length, tlv_length, List.length_nil, true_and]
      all_goals omega

def bcChunk (ca : Bool) : List Nat :=
  SEQUENCE_TAG ::
    (sizeFieldSpecBytes 15 ++
      (tlv OID_TAG BASIC_CONSTRAINTS_OID ++
        (BOOL_TAG ::
          (sizeFieldSpecBytes BOOL_SIZE ++
            (0xFF ::
              (OCTET_STRING_TAG ::
                (sizeFieldSpecBytes 5 ++
                  (SEQUENCE_TAG ::
                    (sizeFieldSpecBytes 3 ++
                      (BOOL_TAG ::
                        (sizeFieldSpecBytes BOOL_SIZE ++
                          [if ca then 0xFF else 0x00])))))))))))

theorem encode_basic_constraints_ok {w : CertWriter} {m : MeasurementData}
    {r : CertWriter × Nat} (h : w.encode_basic_constraints m = .ok r) :
    get_basic_constraints_size true = .ok (bcChunk m.is_ca).length ∧
      EncOk w (bcChunk m.is_ca) r := by
  cases hca : m.is_ca <;>
  · rw [CertWriter.encode_basic_constraints, hca] at h
    simp only [show get_basic_constraints_size false = Except.ok 15 from rfl,
      show get_structure_size 1 true = Except.ok 3 from rfl,
      show get_structure_size 3 true = Except.ok 5 from rfl,
      show get_structure_size BOOL_SIZE true = Except.ok 3 from rfl,
      Bool.false_eq_true, if_false, if_true, exceptBind_ok, exceptPure_def,
      Except.ok.injEq, exists_eq_left'] at h
    obtain ⟨a, ha, b, hb, c, hc, d, hd, e, he, f, hf, g, hg, h8, hh8, i, hi,
      j, hj, k, hk, l, hl, mm, hm, hr⟩ := h
    have e1 := encode_byte_ok ha
    obtain ⟨-, e2⟩ := encode_size_field_ok hb
    obtain ⟨-, e3⟩ := encode_oid_ok hc
    have e4 := encode_byte_ok hd
    obtain ⟨-, e5⟩ := encode_size_field_ok he
    have e6 := encode_byte_ok hf
    have e7 := encode_byte_ok hg
    obtain ⟨-, e8⟩ := encode_size_field_ok hh8
    have e9 := encode_byte_ok hi
    obtain ⟨-, e10⟩ := encode_size_field_ok hj
    have e11 := encode_byte_ok hk
    obtain ⟨-, e12⟩ := encode_size_field_ok hl
    have e13 := encode_byte_ok hm
    refine ⟨rfl, ((((((((((((e1.comp e2).comp e3).comp e4).comp e5).comp e6).comp e7).comp e8).comp e9).comp e10).comp e11).comp e12).comp e13).cast rfl ?_⟩
    rw [← hr, e1.snd, e2.snd, e3.snd, e4.snd, e5.snd, e6.snd, e7.snd, e8.snd,
      e9.snd, e10.snd, e11.snd, e12.snd, e13.snd]
    rfl

def kuChunk (ca : Bool) : List Nat :=
  SEQUENCE_TAG ::
    (sizeFieldSpecBytes 14 ++
      (tlv OID_TAG KEY_USAGE_OID ++
        (BOOL_TAG ::
          (sizeFieldSpecBytes BOOL_SIZE ++
            (0xFF ::
              (OCTET_STRING_TAG ::
                (sizeFieldSpecBytes 4 ++
                  (BIT_STRING_TAG ::
                    (sizeFieldSpecBytes 2 ++
                      (0 ::
                        [if ca then
                            KeyUsageFlags.DIGITAL_SIGNATURE |||
                              KeyUsageFlags.KEY_CERT_SIGN
                          else KeyUsageFlags.DIGITAL_SIGNATURE]))))))))))

theorem encode_key_usage_ok {w : CertWriter} {ca : Bool}
    {r : CertWriter × Nat} (h : w.encode_key_usage ca = .ok r) :
    get_key_usage_size true = .ok (kuChunk ca).length ∧
      EncOk w (kuChunk ca) r := by
  cases ca <;>
  · rw [CertWriter.encode_key_usage] at h
    simp only [show get_key_usage_size false = Except.ok 14 from rfl,
      show get_structure_size 2 true = Except.ok 4 from rfl,
      Bool.false_eq_true, if_false, if_true, exceptBind_ok, exceptPure_def,
      Except.ok.injEq, exists_eq_left'] at h
    obtain ⟨a, ha, b, hb, c, hc, d, hd, e, he, f, hf, g, hg, h8, hh8, i, hi,
      j, hj, k, hk, l, hl, hr⟩ := h
    have e1 := encode_byte_ok ha
    obtain ⟨-, e2⟩ := encode_size_field_ok hb
    obtain ⟨-, e3⟩ := encode_oid_ok hc
    have e4 := encode_byte_ok hd
    obtain ⟨-, e5⟩ := encode_size_field_ok he
    have e6 := encode_byte_ok hf
    have e7 := encode_byte_ok hg
    obtain ⟨-, e8⟩ := encode_size_field_ok hh8
    have e9 := encode_byte_ok hi
    obtain ⟨-, e10⟩ := encode_size_field_ok hj
    have e11 := encode_byte_ok hk
    have e12 := encode_byte_ok hl
    refine ⟨rfl, (((((((((((e1.comp e2).comp e3).comp e4).comp e5).comp e6).comp e7).comp e8).comp e9).comp e10).comp e11).comp e12).cast rfl ?_⟩
    rw [← hr, e1.snd, e2.snd, e3.snd, e4.snd, e5.snd, e6.snd, e7.snd, e8.snd,
      e9.snd, e10.snd, e11.snd, e12.snd]
    rfl

def ekuChunk (ca : Bool) : List Nat :=
  SEQUENCE_TAG ::
    (sizeFieldSpecBytes 21 ++
      (tlv OID_TAG EXTENDED_KEY_USAGE_OID ++
        (BOOL_TAG ::
          (sizeFieldSpecBytes BOOL_SIZE ++
            (0xFF ::
              (OCTET_STRING_TAG ::
                (sizeFieldSpecBytes 11 ++
                  (SEQUENCE_TAG ::
                    (sizeFieldSpecBytes 9 ++
                      tlv OID_TAG
                        (if ca then ECA_OID else ATTEST_LOC_OID))))))))))

theorem encode_extended_key_usage_ok {w : CertWriter} {m : MeasurementData}
    {r : CertWriter × Nat} (h : w.encode_extended_key_usage m = .ok r) :
    get_extended_key_usage_size m true = .ok (ekuChunk m.is_ca).length ∧
      EncOk w (ekuChunk m.is_ca) r := by
  cases hca : m.is_ca <;>
  · rw [CertWriter.encode_extended_key_usage, hca] at h
    have hSz : get_extended_key_usage_size m false = Except.ok 21 := by
      rw [get_extended_key_usage_size, hca]; rfl
    have hSzT : get_extended_key_usage_size m true = Except.ok 23 := by
      rw [get_extended_key_usage_size, hca]; rfl
    simp only [hSz,
      show get_structure_size ECA_OID.length true = Except.ok 9 from rfl,
      show get_structure_size ATTEST_LOC_OID.length true = Except.ok 9 from rfl,
      show get_structure_size 9 true = Except.ok 11 from rfl,
      Bool.false_eq_true, if_false, if_true, exceptBind_ok, exceptPure_def,
      Except.ok.injEq, exists_eq_left'] at h
    obtain ⟨a, ha, b, hb, c, hc, d, hd, e, he, f, hf, g, hg, h8, hh8, i, hi,
      j, hj, k, hk, hr⟩ := h
    have e1 := encode_byte_ok ha
    obtain ⟨-, e2⟩ := encode_size_field_ok hb
    obtain ⟨-, e3⟩ := encode_oid_ok hc
    have e4 := encode_byte_ok hd
    obtain ⟨-, e5⟩ := encode_size_field_ok he
    have e6 := encode_byte_ok hf
    have e7 := encode_byte_ok hg
    obtain ⟨-, e8⟩ := encode_size_field_ok hh8
    have e9 := encode_byte_ok hi
    obtain ⟨-, e10⟩ := encode_size_field_ok hj
    obtain ⟨-, e11⟩ := encode_oid_ok hk
    refine ⟨hSzT.trans rfl, ((((((((((e1.comp e2).comp e3).comp e4).comp e5).comp e6).comp e7).comp e8).comp e9).comp e10).comp e11).cast rfl ?_⟩
    rw [← hr, e1.snd, e2.snd, e3.snd, e4.snd, e5.snd, e6.snd, e7.snd, e8.snd,
      e9.snd, e10.snd, e11.snd]
    rfl

def extChunk (P : DpeProfile) (m : MeasurementData) (crit : Bool) : List Nat :=
  (CONTEXT_SPECIFIC ||| CONSTRUCTED ||| 0x03) ::
    (sizeFieldSpecBytes
        (ssD ((multiTcbInfoChunk P m crit).length + (ueidChunk m crit).length +
          (bcChunk m.is_ca).length + (kuChunk m.is_ca).length +
          (ekuChunk m.is_ca).length)) ++
      (SEQUENCE_OF_TAG ::
        (sizeFieldSpecBytes
            ((multiTcbInfoChunk P m crit).length + (ueidChunk m crit).length +
              (bcChunk m.is_ca).length + (kuChunk m.is_ca).length +
              (ekuChunk m.is_ca).length) ++
          (multiTcbInfoChunk P m crit ++
            (ueidChunk m crit ++
              (bcChunk m.is_ca ++
                (kuChunk m.is_ca ++ ekuChunk m.is_ca)))))))

theorem encode_extensions_ok {w : CertWriter} {P : DpeProfile}
    {m : MeasurementData} {r : CertWriter × Nat}
    (hu : nodesUniform m.tci_nodes)
    (h : w.encode_extensions P m true = .ok r) :
    get_extensions_size P m true true = .ok (extChunk P m w.crit_dice).length ∧
      EncOk w (extChunk P m w.crit_dice) r := by
  rw [CertWriter.encode_extensions] at h
  simp only [if_true, exceptBind_ok, exceptPure_def, Except.ok.injEq,
    exists_eq_left'] at h
  obtain ⟨a1, ha1, s, hs, a2, ha2, b, hb, s2, hs2, c, hc, d, hd, e, he, f, hf,
    g, hg, h8, hh8, hr⟩ := h
  have e1 := encode_byte_ok ha1
  obtain ⟨h65s, e2⟩ := encode_size_field_ok ha2
  have e3 := encode_byte_ok hb
  obtain ⟨h65s2, e4⟩ := encode_size_field_ok hc
  obtain ⟨szM, eM⟩ := encode_multi_tcb_info_ok hu hd
  obtain ⟨szU, eU⟩ := encode_ueid_ok he
  obtain ⟨szB, eB⟩ := encode_basic_constraints_ok hf
  obtain ⟨szK, eK⟩ := encode_key_usage_ok hg
  obtain ⟨szE, eE⟩ := encode_extended_key_usage_ok hh8
  have hcd : c.1.crit_dice = w.crit_dice :=
    (e4.fst_crit).trans ((e3.fst_crit).trans ((e2.fst_crit).trans (e1.fst_crit)))
  rw [hcd] at szM eM
  have hdd : d.1.crit_dice = w.crit_dice := (eM.fst_crit).trans hcd
  rw [hdd] at szU eU
  rw [get_extensions_size] at hs2
  simp only [szM, szU, szB, szK, szE, exceptOk_bind, gss_false, exceptBind_ok,
    Except.ok.injEq] at hs2
  subst hs2
  rw [get_extensions_size] at hs
  simp only [szM, szU, szB, szK, szE, exceptOk_bind, gss_false, exceptBind_ok,
    Except.ok.injEq, exists_eq_left'] at hs
  obtain ⟨rfl, hbs⟩ := gss_true_ok hs
  constructor
  · rw [get_extensions_size]
    simp only [szM, szU, szB, szK, szE, exceptOk_bind, exceptBind_ok,
      gss_true_of_le hbs, exceptPure_def]
    rw [gss_true_of_le h65s]
    simp only [extChunk, Except.ok.injEq, List.length_cons, List.length_append,
      sfb_length, List.length_nil]
    simp only [ssD_def]
    omega
  · refine ((((((((e1.comp e2).comp e3).comp e4).comp eM).comp eU).comp eB).comp eK).comp eE).cast ?_ ?_
    · simp only [extChunk, List.append_assoc, List.cons_append, List.nil_append]
    · rw [← hr, e1.snd, e2.snd, e3.snd, e4.snd, eM.snd, eU.snd, eB.snd, eK.snd,
        eE.snd]
      simp only [extChunk, Prod.mk.injEq, List.length_append, List.length_cons,
        sfb_length, List.length_nil, true_and]
      all_goals omega

def tbsChunk (P : DpeProfile) (serial issuer : List Nat) (nm : Name)
    (pk : EcdsaPub) (m : MeasurementData) (crit : Bool) : List Nat :=
  SEQUENCE_TAG ::
    (sizeFieldSpecBytes
        (versionChunk.length + (intChunk serial).length +
          (ecdsaSigAlgIdChunk P).length + issuer.length + validityChunk.length +
          (rdnChunk nm).length + (pubkeyInfoChunk P pk).length +
          (extChunk P m crit).length) ++
      (versionChunk ++
        (intChunk serial ++
          (ecdsaSigAlgIdChunk P ++
            (issuer ++
              (validityChunk ++
                (rdnChunk nm ++
                  (pubkeyInfoChunk P pk ++ extChunk P m crit))))))))

theorem encode_ecdsa_tbs_ok {w : CertWriter} {P : DpeProfile}
    {serial issuer : List Nat} {nm : Name} {pk : EcdsaPub}
    {m : MeasurementData} {r : CertWriter × Nat}
    (hu : nodesUniform m.tci_nodes)
    (h : w.encode_ecdsa_tbs P serial issuer nm pk m = .ok r) :
    get_tbs_size P serial issuer nm pk m true =
        .ok (tbsChunk P serial issuer nm pk m w.crit_dice).length ∧
      EncOk w (tbsChunk P serial issuer nm pk m w.crit_dice) r := by
  rw [CertWriter.encode_ecdsa_tbs] at h
  simp only [CertWriter.encode_tag_field, exceptBind_ok, exceptPure_def,
    Except.ok.injEq, exists_eq_left'] at h
  obtain ⟨T, hT, a, ha, b, hb, c, hc, d, hd, e, he, f, hf, g, hg, h8, hh8,
    i, hi, j, hj, hr⟩ := h
  have e1 := encode_byte_ok ha
  obtain ⟨h65T, e2⟩ := encode_size_field_ok hb
  obtain ⟨szV, eV⟩ := encode_version_ok hc
  obtain ⟨szI, eI⟩ := encode_integer_bytes_ok hd
  obtain ⟨szS, eS⟩ := encode_ecdsa_sig_alg_id_ok he
  have eIss := encode_bytes_ok hf
  obtain ⟨szD, eD⟩ := encode_validity_ok hg
  obtain ⟨szR, eR⟩ := encode_rdn_ok hh8
  obtain ⟨szP, eP⟩ := encode_ecdsa_subject_pubkey_info_ok hi
  obtain ⟨szX, eX⟩ := encode_extensions_ok hu hj
  have hcrit : i.1.crit_dice = w.crit_dice :=
    (eP.fst_crit).trans ((eR.fst_crit).trans ((eD.fst_crit).trans
      ((eIss.fst_crit).trans ((eS.fst_crit).trans ((eI.fst_crit).trans
        ((eV.fst_crit).trans ((e2.fst_crit).trans (e1.fst_crit))))))))
  rw [hcrit] at szX eX
  rw [get_tbs_size] at hT
  simp only [szV, szI, szS, szD, szR, szP, szX, exceptOk_bind, gss_false,
    Except.ok.injEq] at hT
  subst hT
  constructor
  · rw [get_tbs_size]
    simp only [szV, szI, szS, szD, szR, szP, szX, exceptOk_bind]
    rw [gss_true_of_le h65T]
    simp only [tbsChunk, Except.ok.injEq, List.length_cons, List.length_append,
      sfb_length, List.length_nil]
    simp only [ssD_def]
    omega
  · refine (((((((((e1.comp e2).comp eV).comp eI).comp eS).comp eIss).comp eD).comp eR).comp eP).comp eX).cast ?_ ?_
    · simp only [tbsChunk, List.append_assoc, List.cons_append, List.nil_append]
    · rw [← hr, e1.snd, e2.snd, eV.snd, eI.snd, eS.snd, eIss.snd, eD.snd,
        eR.snd, eP.snd, eX.snd]
      simp only [tbsChunk, Prod.mk.injEq, List.length_append, List.length_cons,
        sfb_length, List.length_nil, true_and]
      all_goals omega

/-- Modelled from the spec: strip the leading zero bytes of a big-endian
integer buffer, keeping at least the final byte of the number (stripping
"leading" zeros never removes the last digit of the value). -/
def stripLeadingZeros (l : List Nat) : List Nat :=
  match l.dropWhile (fun b => b == 0) with
  | [] => if l.isEmpty then [] else [0]
  | s => s

/-- Modelled from the spec: the emitted INTEGER content is the stripped
input, prefixed by a single 0x00 byte exactly when the most significant
retained byte has its high bit set. -/
def specIntegerContent (l : List Nat) : List Nat :=
  match stripLeadingZeros l with
  | [] => []
  | b :: rest => if b &&& 0x80 ≠ 0 then 0 :: (b :: rest) else b :: rest

theorem stripLZ_cons_zero (c : Nat) (t : List Nat) :
    stripLeadingZeros (0 :: c :: t) = stripLeadingZeros (c :: t) := by
  unfold stripLeadingZeros
  rw [List.dropWhile_cons]
  simp only [beq_self_eq_true, if_true, List.isEmpty_cons]

theorem stripLZ_cons_ne {b : Nat} (rest : List Nat) (hb : b ≠ 0) :
    stripLeadingZeros (b :: rest) = b :: rest := by
  unfold stripLeadingZeros
  rw [List.dropWhile_cons, if_neg (by simpa using hb)]

theorem icl_cons_zero (c : Nat) (t : List Nat) :
    int_content_len (0 :: c :: t) = int_content_len (c :: t) := rfl

theorem icl_cons_ne {b : Nat} (c : Nat) (t : List Nat) (hb : b ≠ 0) :
    int_content_len (b :: c :: t) =
      if b &&& 0x80 ≠ 0 then (c :: t).length + 2 else (c :: t).length + 1 := by
  unfold int_content_len
  rw [if_neg hb]

theorem int_content_cons_zero (c : Nat) (t : List Nat) :
    int_content (0 :: c :: t) = int_content (c :: t) := by
  unfold int_content
  rw [icl_cons_zero]
  have hle := int_content_len_le (c :: t)
  simp only [List.length_cons] at hle ⊢
  by_cases hgt : int_content_len (c :: t) > t.length + 1
  · rw [if_neg (by omega), if_pos hgt,
      show t.length + 1 + 1 - int_content_len (c :: t) = 0 from by omega,
      show t.length + 1 - int_content_len (c :: t) = 0 from by omega]
    simp
  · rw [if_neg (by omega), if_neg hgt,
      show t.length + 1 + 1 - int_content_len (c :: t) =
        (t.length + 1 - int_content_len (c :: t)) + 1 from by omega,
      List.drop_succ_cons]

theorem int_content_eq_spec (l : List Nat) (h : l ≠ []) :
    int_content l = specIntegerContent l := by
  induction l with
  | nil => exact absurd rfl h
  | cons b rest ih =>
    cases rest with
    | nil =>
      by_cases hb : b = 0
      · subst hb; decide
      · have hs := stripLZ_cons_ne ([] : List Nat) hb
        by_cases hhb : b &&& 0x80 ≠ 0
        · unfold int_content
          rw [show int_content_len [b] = 2 from by
            unfold int_content_len; rw [if_pos hhb]]
          simp only [specIntegerContent, hs, if_pos hhb]
          simp
        · unfold int_content
          rw [show int_content_len [b] = 1 from by
            unfold int_content_len; rw [if_neg hhb]]
          simp only [specIntegerContent, hs, if_neg hhb]
          simp
    | cons c t =>
      by_cases hb : b = 0
      · subst hb
        rw [int_content_cons_zero, ih (by simp)]
        unfold specIntegerContent
        rw [stripLZ_cons_zero]
      · have hs := stripLZ_cons_ne (c :: t) hb
        unfold int_content
        rw [icl_cons_ne c t hb]
        by_cases hhb : b &&& 0x80 ≠ 0
        · rw [if_pos hhb]
          have h1 : (c :: t).length + 2 > (b :: c :: t).length := by
            simp only [List.length_cons]; omega
          have h2 : (b :: c :: t).length - ((c :: t).length + 2) = 0 := by
            simp only [List.length_cons]; omega
          rw [if_pos h1, h2]
          simp only [specIntegerContent, hs, if_pos hhb]
          simp
        · rw [if_neg hhb]
          have h1 : ¬ ((c :: t).length + 1 > (b :: c :: t).length) := by
            simp only [List.length_cons]; omega
          have h2 : (b :: c :: t).length - ((c :: t).length + 1) = 0 := by
            simp only [List.length_cons]; omega
          rw [if_neg h1, h2]
          simp only [specIntegerContent, hs, if_neg hhb]
          simp

/-! ## Claim theorems -/

/-- C1: for every serial-number, issuer, subject-name, public-key and
measurement input (under the fixed-width digest invariant the source encodes
in its types), a successful `encode_ecdsa_tbs` returns exactly the byte count
that `get_tbs_size` with `tagged = true` computes on the same inputs. -/
theorem C1_tbs_size_eq {w : CertWriter} {P : DpeProfile}
    {serial issuer : List Nat} {nm : Name} {pk : EcdsaPub}
    {m : MeasurementData} {res : CertWriter × Nat}
    (hu : nodesUniform m.tci_nodes)
    (h : w.encode_ecdsa_tbs P serial issuer nm pk m = .ok res) :
    get_tbs_size P serial issuer nm pk m true = .ok res.2 := by
  obtain ⟨hsz, he⟩ := encode_ecdsa_tbs_ok hu h
  rw [hsz, he.snd]

set_option maxRecDepth 100000 in
theorem C1_witness :
    ∃ res : CertWriter × Nat,
      (CertWriter.mk (List.replicate 400 0) 0 false).encode_ecdsa_tbs
          DpeProfile.p256Sha256 [1] []
          ⟨DirectoryString.printableString [65], DirectoryString.utf8String [66]⟩
          ⟨[2], [3]⟩
          ⟨[7], [⟨1, ⟨[9]⟩, ⟨[9]⟩, 2⟩], true, false⟩ = Except.ok res ∧
      get_tbs_size DpeProfile.p256Sha256 [1] []
          ⟨DirectoryString.printableString [65], DirectoryString.utf8String [66]⟩
          ⟨[2], [3]⟩
          ⟨[7], [⟨1, ⟨[9]⟩, ⟨[9]⟩, 2⟩], true, false⟩ true = Except.ok res.2 :=
  ⟨_, rfl,
    @C1_tbs_size_eq (CertWriter.mk (List.replicate 400 0) 0 false)
      DpeProfile.p256Sha256 [1] []
      ⟨DirectoryString.printableString [65], DirectoryString.utf8String [66]⟩
      ⟨[2], [3]⟩ ⟨[7], [⟨1, ⟨[9]⟩, ⟨[9]⟩, 2⟩], true, false⟩ _
      ⟨1, by decide⟩ rfl⟩

/-- C2: `encode_bytes` and `encode_byte` never write outside the caller's
buffer: a successful write fitted entirely (`offset + size ≤ buffer length`)
and the buffer keeps its length; a write that would not fit returns
`InternalError`; in particular, encoding a TBS certificate into a buffer one
byte shorter than its computed total size returns `InternalError`. -/
theorem C2_buffer_safety :
    (∀ (w : CertWriter) (bytes : List Nat) (r : CertWriter × Nat),
        w.encode_bytes bytes = .ok r →
          w.offset + bytes.length ≤ w.certificate.length ∧
          r.1.certificate.length = w.certificate.length) ∧
    (∀ (w : CertWriter) (b : Nat) (r : CertWriter × Nat),
        w.encode_byte b = .ok r →
          w.offset < w.certificate.length ∧
          r.1.certificate.length = w.certificate.length) ∧
    (∀ (w : CertWriter) (bytes : List Nat),
        w.certificate.length < w.offset + bytes.length →
          w.encode_bytes bytes = .error .internalError) ∧
    (∀ (w : CertWriter) (b : Nat),
        w.certificate.length ≤ w.offset →
          w.encode_byte b = .error .internalError) ∧
    (∀ (P : DpeProfile) (serial issuer : List Nat) (nm : Name) (pk : EcdsaPub)
        (m : MeasurementData) (crit : Bool) (buf : List Nat) (size : Nat),
        nodesUniform m.tci_nodes →
        get_tbs_size P serial issuer nm pk m true = .ok size →
        buf.length + 1 = size →
        (CertWriter.mk buf 0 crit).encode_ecdsa_tbs P serial issuer nm pk m =
          .error .internalError) := by
  refine ⟨?_, ?_, ?_, ?_, ?_⟩
  · intro w bytes r h
    rw [encode_bytes_ok_iff] at h
    obtain ⟨h1, h2, rfl⟩ := h
    exact ⟨h2, writeAt_length h2⟩
  · intro w b r h
    rw [encode_byte_ok_iff] at h
    obtain ⟨h1, rfl⟩ := h
    refine ⟨h1, writeAt_length ?_⟩
    simpa using h1
  · intro w bytes h
    unfold CertWriter.encode_bytes
    dsimp only
    rw [if_pos (Or.inr (by omega))]
  · intro w b h
    unfold CertWriter.encode_byte
    rw [if_pos (by omega)]
  · intro P serial issuer nm pk m crit buf size hu hsz hlen
    rcases henc : (CertWriter.mk buf 0 crit).encode_ecdsa_tbs P serial issuer
        nm pk m with e | res
    · cases e; rfl
    · exfalso
      obtain ⟨hsz', he⟩ := encode_ecdsa_tbs_ok hu henc
      rw [hsz'] at hsz
      have hb := he.bound
      simp only [Except.ok.injEq] at hsz
      simp only [Nat.zero_add] at hb
      omega

set_option maxRecDepth 100000 in
theorem C2_witness :
    (∃ r : CertWriter × Nat,
      (CertWriter.mk [0, 0] 0 false).encode_bytes [1] = Except.ok r ∧
        0 + [1].length ≤ 2 ∧ r.1.certificate.length = 2) ∧
    (CertWriter.mk ([] : List Nat) 0 false).encode_bytes [1] =
      Except.error DpeErrorCode.internalError ∧
    (CertWriter.mk [5] 1 false).encode_byte 9 =
      Except.error DpeErrorCode.internalError ∧
    (CertWriter.mk (List.replicate 242 0) 0 false).encode_ecdsa_tbs
        DpeProfile.p256Sha256 [1] []
        ⟨DirectoryString.printableString [65], DirectoryString.utf8String [66]⟩
        ⟨[2], [3]⟩ ⟨[7], [⟨1, ⟨[9]⟩, ⟨[9]⟩, 2⟩], true, false⟩ =
      Except.error DpeErrorCode.internalError :=
  ⟨⟨_, rfl, C2_buffer_safety.1 (CertWriter.mk [0, 0] 0 false) [1] _ rfl⟩,
    C2_buffer_safety.2.2.1 (CertWriter.mk ([] : List Nat) 0 false) [1]
      (by decide),
    C2_buffer_safety.2.2.2.1 (CertWriter.mk [5] 1 false) 9 (by decide),
    C2_buffer_safety.2.2.2.2 DpeProfile.p256Sha256 [1] []
      ⟨DirectoryString.printableString [65], DirectoryString.utf8String [66]⟩
      ⟨[2], [3]⟩ ⟨[7], [⟨1, ⟨[9]⟩, ⟨[9]⟩, 2⟩], true, false⟩ false
      (List.replicate 242 0) 243 ⟨1, by decide⟩ rfl (by simp)⟩

/-- C3: an empty `tci_nodes` collection is rejected: both
`get_multi_tcb_info_size` (for either value of the tagged flag) and
`encode_multi_tcb_info` return `InternalError`, regardless of the other
measurement fields and of the writer state. -/
theorem C3_empty_tci_nodes {P : DpeProfile} {m : MeasurementData}
    (w : CertWriter) (tagged : Bool) (h : m.tci_nodes = []) :
    get_multi_tcb_info_size P m tagged = .error .internalError ∧
      w.encode_multi_tcb_info P m = .error .internalError := by
  constructor
  · rw [get_multi_tcb_info_size, h]
  · rw [CertWriter.encode_multi_tcb_info, get_multi_tcb_info_size, h]
    rfl

theorem C3_witness :
    (get_multi_tcb_info_size DpeProfile.p384Sha384 ⟨[3], [], true, true⟩ true =
        .error .internalError ∧
      (CertWriter.mk [0, 0, 0] 0 true).encode_multi_tcb_info
          DpeProfile.p384Sha384 ⟨[3], [], true, true⟩ =
        .error .internalError) ∧
    get_multi_tcb_info_size DpeProfile.p384Sha384 ⟨[3], [], true, true⟩ false =
      .error .internalError :=
  ⟨@C3_empty_tci_nodes DpeProfile.p384Sha384 ⟨[3], [], true, true⟩
      (CertWriter.mk [0, 0, 0] 0 true) true rfl,
    (@C3_empty_tci_nodes DpeProfile.p384Sha384 ⟨[3], [], true, true⟩
      (CertWriter.mk [0, 0, 0] 0 true) false rfl).1⟩

/-- C4: the DER length field is minimal: a size of at most 127 is one byte
holding the size (`get_size_width` = 1); a size of 128..255 is `0x80 ||| 1`
followed by the one-byte value; a size of 256..65535 is `0x80 ||| 2` followed
by two big-endian bytes; a size above 65535 makes both `get_size_width` and
`encode_size_field` fail with `InternalError`. -/
theorem C4_size_field_form (size : Nat) (w : CertWriter) :
    (size ≤ 127 → get_size_width size = .ok 1 ∧
      ∀ r, w.encode_size_field size = .ok r → EncOk w [size] r) ∧
    (128 ≤ size → size ≤ 255 → get_size_width size = .ok 2 ∧
      ∀ r, w.encode_size_field size = .ok r →
        EncOk w [0x80 ||| 1, size] r) ∧
    (256 ≤ size → size ≤ 65535 → get_size_width size = .ok 3 ∧
      ∀ r, w.encode_size_field size = .ok r →
        EncOk w [0x80 ||| 2, size / 256, size % 256] r) ∧
    (65535 < size → get_size_width size = .error .internalError ∧
      w.encode_size_field size = .error .internalError) := by
  refine ⟨fun h1 => ⟨?_, fun r hr => ?_⟩, fun h1 h2 => ⟨?_, fun r hr => ?_⟩,
    fun h1 h2 => ⟨?_, fun r hr => ?_⟩, fun h1 => ⟨?_, ?_⟩⟩
  · rw [get_size_width, if_pos h1]
  · have hsf := (encode_size_field_ok hr).2
    rwa [sizeFieldSpecBytes, if_pos h1] at hsf
  · rw [get_size_width, if_neg (by omega), if_pos h2]
  · have hsf := (encode_size_field_ok hr).2
    rwa [sizeFieldSpecBytes, if_neg (by omega), if_pos h2] at hsf
  · rw [get_size_width, if_neg (by omega), if_neg (by omega), if_pos h2]
  · have hsf := (encode_size_field_ok hr).2
    rwa [sizeFieldSpecBytes, if_neg (by omega), if_neg (by omega)] at hsf
  · rw [get_size_width, if_neg (by omega), if_neg (by omega),
      if_neg (by omega)]
  · rw [CertWriter.encode_size_field,
      show get_size_width size = .error .internalError from by
        rw [get_size_width, if_neg (by omega), if_neg (by omega),
          if_neg (by omega)]]
    rfl

theorem C4_witness :
    (get_size_width 100 = .ok 1 ∧
      ∃ r, (CertWriter.mk [0] 0 false).encode_size_field 100 = .ok r ∧
        EncOk (CertWriter.mk [0] 0 false) [100] r) ∧
    (get_size_width 200 = .ok 2 ∧
      ∃ r, (CertWriter.mk [0, 0] 0 false).encode_size_field 200 = .ok r ∧
        EncOk (CertWriter.mk [0, 0] 0 false) [0x80 ||| 1, 200] r) ∧
    (get_size_width 1000 = .ok 3 ∧
      ∃ r, (CertWriter.mk [0, 0, 0] 0 false).encode_size_field 1000 = .ok r ∧
        EncOk (CertWriter.mk [0, 0, 0] 0 false)
          [0x80 ||| 2, 1000 / 256, 1000 % 256] r) ∧
    (get_size_width 65536 = .error .internalError ∧
      (CertWriter.mk [0] 0 false).encode_size_field 65536 =
        .error .internalError) :=
  ⟨⟨((C4_size_field_form 100 (CertWriter.mk [0] 0 false)).1 (by decide)).1,
    _, rfl,
    ((C4_size_field_form 100 (CertWriter.mk [0] 0 false)).1 (by decide)).2
      _ rfl⟩,
  ⟨((C4_size_field_form 200 (CertWriter.mk [0, 0] 0 false)).2.1 (by decide)
      (by decide)).1,
    _, rfl,
    ((C4_size_field_form 200 (CertWriter.mk [0, 0] 0 false)).2.1 (by decide)
      (by decide)).2 _ rfl⟩,
  ⟨((C4_size_field_form 1000 (CertWriter.mk [0, 0, 0] 0 false)).2.2.1
      (by decide) (by decide)).1,
    _, rfl,
    ((C4_size_field_form 1000 (CertWriter.mk [0, 0, 0] 0 false)).2.2.1
      (by decide) (by decide)).2 _ rfl⟩,
  (C4_size_field_form 65536 (CertWriter.mk [0] 0 false)).2.2.2 (by decide)⟩

/-- C5: for every non-empty big-endian buffer, a successful
`encode_integer_bytes` writes `INTEGER_TAG`, a DER size field, and then
exactly the input with its leading zero bytes stripped, prefixed by a single
0x00 byte exactly when the most significant retained byte has its high bit
set; `get_integer_bytes_size` returns the matching total byte count. -/
theorem C5_integer_content {w : CertWriter} {l : List Nat}
    {r : CertWriter × Nat} (hne : l ≠ [])
    (h : w.encode_integer_bytes l = .ok r) :
    EncOk w (INTEGER_TAG ::
        (sizeFieldSpecBytes (specIntegerContent l).length ++
          specIntegerContent l)) r ∧
      get_integer_bytes_size l true =
        .ok (1 + (sizeFieldSpecBytes (specIntegerContent l).length).length +
          (specIntegerContent l).length) := by
  obtain ⟨hsz, he⟩ := encode_integer_bytes_ok h
  have hc := int_content_eq_spec l hne
  have hlen : int_content_len l = (specIntegerContent l).length := by
    rw [← int_content_length, hc]
  constructor
  · refine he.cast ?_ rfl
    rw [intChunk, hlen, hc]
  · rw [hsz]
    simp only [intChunk, List.length_cons, List.length_append,
      Except.ok.injEq, hlen, hc]
    omega

set_option maxRecDepth 10000 in
theorem C5_witness :
    ∃ r, (CertWriter.mk [9, 9, 9, 9] 0 false).encode_integer_bytes [0, 0x80] =
        Except.ok r ∧
      (EncOk (CertWriter.mk [9, 9, 9, 9] 0 false)
          (INTEGER_TAG ::
            (sizeFieldSpecBytes (specIntegerContent [0, 0x80]).length ++
              specIntegerContent [0, 0x80])) r ∧
        get_integer_bytes_size [0, 0x80] true =
          .ok (1 +
            (sizeFieldSpecBytes (specIntegerContent [0, 0x80]).length).length +
            (specIntegerContent [0, 0x80]).length)) :=
  ⟨_, rfl, @C5_integer_content (CertWriter.mk [9, 9, 9, 9] 0 false) [0, 0x80]
    _ (by decide) rfl⟩

/-- C6: `is_ca` selects the certificate-authority shape of the three fixed
extensions: BasicConstraints encodes cA as 0xFF (is_ca) or 0x00, KeyUsage's
bit string carries 0x84 (digitalSignature|keyCertSign, is_ca) or 0x80
(digitalSignature only), and ExtendedKeyUsage contains exactly one OID, the
ECA OID (is_ca) or the attestLoc OID. -/
theorem C6_is_ca_extensions {w1 w2 w3 : CertWriter} {m : MeasurementData}
    {r1 r2 r3 : CertWriter × Nat}
    (h1 : w1.encode_basic_constraints m = .ok r1)
    (h2 : w2.encode_key_usage m.is_ca = .ok r2)
    (h3 : w3.encode_extended_key_usage m = .ok r3) :
    EncOk w1
      (SEQUENCE_TAG ::
        (sizeFieldSpecBytes 15 ++
          (tlv OID_TAG BASIC_CONSTRAINTS_OID ++
            (BOOL_TAG ::
              (sizeFieldSpecBytes BOOL_SIZE ++
                (0xFF ::
                  (OCTET_STRING_TAG ::
                    (sizeFieldSpecBytes 5 ++
                      (SEQUENCE_TAG ::
                        (sizeFieldSpecBytes 3 ++
                          (BOOL_TAG ::
                            (sizeFieldSpecBytes BOOL_SIZE ++
                              [if m.is_ca then 0xFF else 0x00])))))))))))) r1 ∧
    EncOk w2
      (SEQUENCE_TAG ::
        (sizeFieldSpecBytes 14 ++
          (tlv OID_TAG KEY_USAGE_OID ++
            (BOOL_TAG ::
              (sizeFieldSpecBytes BOOL_SIZE ++
                (0xFF ::
                  (OCTET_STRING_TAG ::
                    (sizeFieldSpecBytes 4 ++
                      (BIT_STRING_TAG ::
                        (sizeFieldSpecBytes 2 ++
                          (0 ::
                            [if m.is_ca then 0x84 else 0x80]))))))))))) r2 ∧
    EncOk w3
      (SEQUENCE_TAG ::
        (sizeFieldSpecBytes 21 ++
          (tlv OID_TAG EXTENDED_KEY_USAGE_OID ++
            (BOOL_TAG ::
              (sizeFieldSpecBytes BOOL_SIZE ++
                (0xFF ::
                  (OCTET_STRING_TAG ::
                    (sizeFieldSpecBytes 11 ++
                      (SEQUENCE_TAG ::
                        (sizeFieldSpecBytes 9 ++
                          tlv OID_TAG
                            (if m.is_ca then ECA_OID
                              else ATTEST_LOC_OID))))))))))) r3 := by
  refine ⟨(encode_basic_constraints_ok h1).2.cast ?_ rfl,
    (encode_key_usage_ok h2).2.cast ?_ rfl,
    (encode_extended_key_usage_ok h3).2.cast ?_ rfl⟩
  · rfl
  · cases m.is_ca <;> decide
  · rfl

set_option maxRecDepth 10000 in
theorem C6_witness :
    ∃ (r1 r2 r3 : CertWriter × Nat),
      (CertWriter.mk (List.replicate 17 0) 0 false).encode_basic_constraints
          ⟨[1], [], true, false⟩ = Except.ok r1 ∧
      (CertWriter.mk (List.replicate 16 0) 0 false).encode_key_usage
          (⟨[1], [], true, false⟩ : MeasurementData).is_ca = Except.ok r2 ∧
      (CertWriter.mk (List.replicate 23 0) 0 false).encode_extended_key_usage
          ⟨[1], [], true, false⟩ = Except.ok r3 ∧
      EncOk (CertWriter.mk (List.replicate 16 0) 0 false)
        (SEQUENCE_TAG ::
          (sizeFieldSpecBytes 14 ++
            (tlv OID_TAG KEY_USAGE_OID ++
              (BOOL_TAG ::
                (sizeFieldSpecBytes BOOL_SIZE ++
                  (0xFF ::
                    (OCTET_STRING_TAG ::
                      (sizeFieldSpecBytes 4 ++
                        (BIT_STRING_TAG ::
                          (sizeFieldSpecBytes 2 ++
                            (0 ::
                              [if (⟨[1], [], true, false⟩ :
                                  MeasurementData).is_ca then 0x84
                                else 0x80]))))))))))) r2 :=
  ⟨_, _, _, rfl, rfl, rfl,
    (@C6_is_ca_extensions (CertWriter.mk (List.replicate 17 0) 0 false)
      (CertWriter.mk (List.replicate 16 0) 0 false)
      (CertWriter.mk (List.replicate 23 0) 0 false)
      ⟨[1], [], true, false⟩ _ _ _ rfl rfl rfl).2.1⟩

/-- C7: each TcbInfo record emits in its `[6]` fwids field exactly one FWID
(the current measurement) when `supports_extend_tci` is false, and exactly
two FWIDs in the order current-then-cumulative when it is true, and
`get_tcb_info_size` accounts for the same entries. -/
theorem C7_fwid_count {w : CertWriter} {P : DpeProfile} {node : TciNodeData}
    {ext : Bool} {r : CertWriter × Nat}
    (hcc : node.tci_cumulative.bytes.length = node.tci_current.bytes.length)
    (h : w.encode_tcb_info P node ext = .ok r) :
    get_tcb_info_size P node ext true =
      .ok (SEQUENCE_TAG ::
        (sizeFieldSpecBytes
            (ssD ((fwidChunk P node.tci_current.bytes).length +
                  (if ext then (fwidChunk P node.tci_cumulative.bytes).length
                    else 0)) +
              2 * ssD 4) ++
          ((CONTEXT_SPECIFIC ||| CONSTRUCTED ||| 0x06) ::
            (sizeFieldSpecBytes
                (if ext then (fwidChunk P node.tci_current.bytes).length * 2
                  else (fwidChunk P node.tci_current.bytes).length) ++
              (fwidChunk P node.tci_current.bytes ++
                ((if ext then fwidChunk P node.tci_cumulative.bytes else []) ++
                  ((CONTEXT_SPECIFIC ||| 0x08) ::
                    (sizeFieldSpecBytes 4 ++
                      (u32_be_bytes node.locality ++
                        ((CONTEXT_SPECIFIC ||| 0x09) ::
                          (sizeFieldSpecBytes 4 ++
                            u32_be_bytes node.tci_type))))))))))).length ∧
      EncOk w
        (SEQUENCE_TAG ::
          (sizeFieldSpecBytes
              (ssD ((fwidChunk P node.tci_current.bytes).length +
                    (if ext then (fwidChunk P node.tci_cumulative.bytes).length
                      else 0)) +
                2 * ssD 4) ++
            ((CONTEXT_SPECIFIC ||| CONSTRUCTED ||| 0x06) ::
              (sizeFieldSpecBytes
                  (if ext then (fwidChunk P node.tci_current.bytes).length * 2
                    else (fwidChunk P node.tci_current.bytes).length) ++
                (fwidChunk P node.tci_current.bytes ++
                  ((if ext then fwidChunk P node.tci_cumulative.bytes
                      else []) ++
                    ((CONTEXT_SPECIFIC ||| 0x08) ::
                      (sizeFieldSpecBytes 4 ++
                        (u32_be_bytes node.locality ++
                          ((CONTEXT_SPECIFIC ||| 0x09) ::
                            (sizeFieldSpecBytes 4 ++
                              u32_be_bytes node.tci_type))))))))))) r := by
  obtain ⟨hsz, he⟩ := encode_tcb_info_ok hcc h
  exact ⟨hsz.trans rfl, he.cast rfl rfl⟩

set_option maxRecDepth 10000 in
theorem C7_witness :
    ∃ r : CertWriter × Nat,
      (CertWriter.mk (List.replicate 100 0) 0 false).encode_tcb_info
          DpeProfile.p256Sha256 ⟨1, ⟨[5]⟩, ⟨[6]⟩, 2⟩ true = Except.ok r ∧
      EncOk (CertWriter.mk (List.replicate 100 0) 0 false)
        (SEQUENCE_TAG ::
          (sizeFieldSpecBytes
              (ssD ((fwidChunk DpeProfile.p256Sha256 [6]).length +
                    (if true then
                        (fwidChunk DpeProfile.p256Sha256 [5]).length
                      else 0)) +
                2 * ssD 4) ++
            ((CONTEXT_SPECIFIC ||| CONSTRUCTED ||| 0x06) ::
              (sizeFieldSpecBytes
                  (if true then
                      (fwidChunk DpeProfile.p256Sha256 [6]).length * 2
                    else (fwidChunk DpeProfile.p256Sha256 [6]).length) ++
                (fwidChunk DpeProfile.p256Sha256 [6] ++
                  ((if true then fwidChunk DpeProfile.p256Sha256 [5]
                      else []) ++
                    ((CONTEXT_SPECIFIC ||| 0x08) ::
                      (sizeFieldSpecBytes 4 ++
                        (u32_be_bytes 2 ++
                          ((CONTEXT_SPECIFIC ||| 0x09) ::
                            (sizeFieldSpecBytes 4 ++
                              u32_be_bytes 1))))))))))) r :=
  ⟨_, rfl,
    (@C7_fwid_count (CertWriter.mk (List.replicate 100 0) 0 false)
      DpeProfile.p256Sha256 ⟨1, ⟨[5]⟩, ⟨[6]⟩, 2⟩ true _ rfl rfl).2⟩

/-- C8: `encode_rdn` emits a SEQUENCE OF with exactly two attributes in fixed
order — commonName (OID 2.5.4.3) then serialNumber (OID 2.5.4.5) — each in
its own single-element SET holding a SEQUENCE of the OID and the value, and
each value keeps the tag of its DirectoryString variant (0x13 printable,
0x0C utf8) with the input bytes verbatim. -/
theorem C8_rdn_shape {w : CertWriter} {name : Name} {r : CertWriter × Nat}
    (h : w.encode_rdn name = .ok r) :
    EncOk w
      (SEQUENCE_OF_TAG ::
        (sizeFieldSpecBytes
            (ssD (ssD (ssD RDN_COMMON_NAME_OID.length +
                ssD name.cn.bytes.length)) +
             ssD (ssD (ssD RDN_SERIALNUMBER_OID.length +
                ssD name.serial.bytes.length))) ++
          (SET_OF_TAG ::
            (sizeFieldSpecBytes
                (ssD (ssD RDN_COMMON_NAME_OID.length +
                  ssD name.cn.bytes.length)) ++
              (SEQUENCE_TAG ::
                (sizeFieldSpecBytes
                    (ssD RDN_COMMON_NAME_OID.length +
                      ssD name.cn.bytes.length) ++
                  (tlv OID_TAG RDN_COMMON_NAME_OID ++
                    rdnStringChunk name.cn)))) ++
          (SET_OF_TAG ::
            (sizeFieldSpecBytes
                (ssD (ssD RDN_SERIALNUMBER_OID.length +
                  ssD name.serial.bytes.length)) ++
              (SEQUENCE_TAG ::
                (sizeFieldSpecBytes
                    (ssD RDN_SERIALNUMBER_OID.length +
                      ssD name.serial.bytes.length) ++
                  (tlv OID_TAG RDN_SERIALNUMBER_OID ++
                    rdnStringChunk name.serial)))))))) r ∧
    (∀ v : List Nat, rdnStringChunk (DirectoryString.printableString v) =
        PRINTABLE_STRING_TAG :: (sizeFieldSpecBytes v.length ++ v)) ∧
    (∀ v : List Nat, rdnStringChunk (DirectoryString.utf8String v) =
        UTF8_STRING_TAG :: (sizeFieldSpecBytes v.length ++ v)) :=
  ⟨(encode_rdn_ok h).2.cast rfl rfl, fun v => rfl, fun v => rfl⟩

set_option maxRecDepth 10000 in
theorem C8_witness :
    ∃ r : CertWriter × Nat,
      (CertWriter.mk (List.replicate 40 0) 0 false).encode_rdn
          ⟨DirectoryString.printableString [65],
            DirectoryString.utf8String [66]⟩ = Except.ok r ∧
      rdnStringChunk (DirectoryString.printableString [65]) =
        PRINTABLE_STRING_TAG :: (sizeFieldSpecBytes 1 ++ [65]) ∧
      rdnStringChunk (DirectoryString.utf8String [66]) =
        UTF8_STRING_TAG :: (sizeFieldSpecBytes 1 ++ [66]) :=
  ⟨_, rfl,
    (@C8_rdn_shape (CertWriter.mk (List.replicate 40 0) 0 false)
      ⟨DirectoryString.printableString [65], DirectoryString.utf8String [66]⟩
      _ rfl).2.1 [65],
    (@C8_rdn_shape (CertWriter.mk (List.replicate 40 0) 0 false)
      ⟨DirectoryString.printableString [65], DirectoryString.utf8String [66]⟩
      _ rfl).2.2 [66]⟩

/-- C9: the critical BOOLEAN byte inside the MultiTcbInfo and UEID
extensions is 0xFF when the writer's `crit_dice` is true and 0x00 when it is
false, while the critical BOOLEAN of BasicConstraints, KeyUsage and
ExtendedKeyUsage is always 0xFF regardless of `crit_dice`. -/
theorem C9_criticality {w1 w2 w3 w4 w5 : CertWriter} {P : DpeProfile}
    {m : MeasurementData} {node0 : TciNodeData} {rest : List TciNodeData}
    {r1 r2 r3 r4 r5 : CertWriter × Nat}
    (hu : nodesUniform m.tci_nodes) (hnodes : m.tci_nodes = node0 :: rest)
    (h1 : w1.encode_multi_tcb_info P m = .ok r1)
    (h2 : w2.encode_ueid m = .ok r2)
    (h3 : w3.encode_basic_constraints m = .ok r3)
    (h4 : w4.encode_key_usage m.is_ca = .ok r4)
    (h5 : w5.encode_extended_key_usage m = .ok r5) :
    EncOk w1
      (SEQUENCE_TAG ::
        (sizeFieldSpecBytes
            (ssD MULTI_TCBINFO_OID.length + ssD 1 +
              ssD (ssD ((node0 :: rest).length *
                (tcbInfoChunk P node0 m.supports_extend_tci).length))) ++
          (tlv OID_TAG MULTI_TCBINFO_OID ++
            (BOOL_TAG ::
              (sizeFieldSpecBytes BOOL_SIZE ++
                ((if w1.crit_dice then 0xFF else 0x00) ::
                  (OCTET_STRING_TAG ::
                    (sizeFieldSpecBytes
                        (ssD ((tcbInfoChunk P node0
                            m.supports_extend_tci).length *
                          (node0 :: rest).length)) ++
                      (SEQUENCE_OF_TAG ::
                        (sizeFieldSpecBytes
                            ((tcbInfoChunk P node0
                                m.supports_extend_tci).length *
                              (node0 :: rest).length) ++
                          tcbListChunk P (node0 :: rest)
                            m.supports_extend_tci)))))))))) r1 ∧
    EncOk w2
      (SEQUENCE_TAG ::
        (sizeFieldSpecBytes
            (ssD UEID_OID.length + ssD 1 + ssD (ssD (ssD m.label.length))) ++
          (tlv OID_TAG UEID_OID ++
            (BOOL_TAG ::
              (sizeFieldSpecBytes BOOL_SIZE ++
                ((if w2.crit_dice then 0xFF else 0x00) ::
                  (OCTET_STRING_TAG ::
                    (sizeFieldSpecBytes (ssD (ssD m.label.length)) ++
                      (SEQUENCE_TAG ::
                        (sizeFieldSpecBytes (ssD m.label.length) ++
                          (OCTET_STRING_TAG ::
                            (sizeFieldSpecBytes m.label.length ++
                              m.label)))))))))))) r2 ∧
    EncOk w3
      (SEQUENCE_TAG ::
        (sizeFieldSpecBytes 15 ++
          (tlv OID_TAG BASIC_CONSTRAINTS_OID ++
            (BOOL_TAG ::
              (sizeFieldSpecBytes BOOL_SIZE ++
                (0xFF ::
                  (OCTET_STRING_TAG ::
                    (sizeFieldSpecBytes 5 ++
                      (SEQUENCE_TAG ::
                        (sizeFieldSpecBytes 3 ++
                          (BOOL_TAG ::
                            (sizeFieldSpecBytes BOOL_SIZE ++
                              [if m.is_ca then 0xFF else 0x00])))))))))))) r3 ∧
    EncOk w4
      (SEQUENCE_TAG ::
        (sizeFieldSpecBytes 14 ++
          (tlv OID_TAG KEY_USAGE_OID ++
            (BOOL_TAG ::
              (sizeFieldSpecBytes BOOL_SIZE ++
                (0xFF ::
                  (OCTET_STRING_TAG ::
                    (sizeFieldSpecBytes 4 ++
                      (BIT_STRING_TAG ::
                        (sizeFieldSpecBytes 2 ++
                          (0 ::
                            [if m.is_ca then
                                KeyUsageFlags.DIGITAL_SIGNATURE |||
                                  KeyUsageFlags.KEY_CERT_SIGN
                              else
                                KeyUsageFlags.DIGITAL_SIGNATURE]))))))))))) r4 ∧
    EncOk w5
      (SEQUENCE_TAG ::
        (sizeFieldSpecBytes 21 ++
          (tlv OID_TAG EXTENDED_KEY_USAGE_OID ++
            (BOOL_TAG ::
              (sizeFieldSpecBytes BOOL_SIZE ++
                (0xFF ::
                  (OCTET_STRING_TAG ::
                    (sizeFieldSpecBytes 11 ++
                      (SEQUENCE_TAG ::
                        (sizeFieldSpecBytes 9 ++
                          tlv OID_TAG
                            (if m.is_ca then ECA_OID
                              else ATTEST_LOC_OID))))))))))) r5 :=
  ⟨(encode_multi_tcb_info_ok hu h1).2.cast (multiTcbInfoChunk_cons hnodes) rfl,
    (encode_ueid_ok h2).2.cast rfl rfl,
    (encode_basic_constraints_ok h3).2.cast rfl rfl,
    (encode_key_usage_ok h4).2.cast rfl rfl,
    (encode_extended_key_usage_ok h5).2.cast rfl rfl⟩

set_option maxRecDepth 100000 in
theorem C9_witness :
    ∃ (r1 r2 r3 r4 r5 : CertWriter × Nat),
      (CertWriter.mk (List.replicate 200 0) 0 true).encode_multi_tcb_info
          DpeProfile.p256Sha256 ⟨[7], [⟨1, ⟨[9]⟩, ⟨[9]⟩, 2⟩], true, false⟩ =
        Except.ok r1 ∧
      (CertWriter.mk (List.replicate 40 0) 0 true).encode_ueid
          ⟨[7], [⟨1, ⟨[9]⟩, ⟨[9]⟩, 2⟩], true, false⟩ = Except.ok r2 ∧
      (CertWriter.mk (List.replicate 17 0) 0 true).encode_basic_constraints
          ⟨[7], [⟨1, ⟨[9]⟩, ⟨[9]⟩, 2⟩], true, false⟩ = Except.ok r3 ∧
      (CertWriter.mk (List.replicate 16 0) 0 true).encode_key_usage
          (⟨[7], [⟨1, ⟨[9]⟩, ⟨[9]⟩, 2⟩], true, false⟩ :
            MeasurementData).is_ca = Except.ok r4 ∧
      (CertWriter.mk (List.replicate 23 0) 0 true).encode_extended_key_usage
          ⟨[7], [⟨1, ⟨[9]⟩, ⟨[9]⟩, 2⟩], true, false⟩ = Except.ok r5 ∧
      EncOk (CertWriter.mk (List.replicate 40 0) 0 true)
        (SEQUENCE_TAG ::
          (sizeFieldSpecBytes (ssD UEID_OID.length + ssD 1 +
              ssD (ssD (ssD ([7] : List Nat).length))) ++
            (tlv OID_TAG UEID_OID ++
              (BOOL_TAG ::
                (sizeFieldSpecBytes BOOL_SIZE ++
                  ((if (CertWriter.mk (List.replicate 40 0) 0
                        true).crit_dice then 0xFF else 0x00) ::
                    (OCTET_STRING_TAG ::
                      (sizeFieldSpecBytes (ssD (ssD ([7] : List Nat).length)) ++
                        (SEQUENCE_TAG ::
                          (sizeFieldSpecBytes (ssD ([7] : List Nat).length) ++
                            (OCTET_STRING_TAG ::
                              (sizeFieldSpecBytes ([7] : List Nat).length ++
                                [7])))))))))))) r2 :=
  ⟨_, _, _, _, _, rfl, rfl, rfl, rfl, rfl,
    (@C9_criticality (CertWriter.mk (List.replicate 200 0) 0 true)
      (CertWriter.mk (List.replicate 40 0) 0 true)
      (CertWriter.mk (List.replicate 17 0) 0 true)
      (CertWriter.mk (List.replicate 16 0) 0 true)
      (CertWriter.mk (List.replicate 23 0) 0 true)
      DpeProfile.p256Sha256 ⟨[7], [⟨1, ⟨[9]⟩, ⟨[9]⟩, 2⟩], true, false⟩
      ⟨1, ⟨[9]⟩, ⟨[9]⟩, 2⟩ [] _ _ _ _ _
      ⟨1, by decide⟩ rfl rfl rfl rfl rfl rfl).2.1⟩

/-- C10: encoding the empty integer buffer always fails with `InternalError`
(whatever the writer state), while `get_integer_bytes_size` accepts the empty
slice and returns a successful size, so the size/encode pairing does not hold
for this input. -/
theorem C10_empty_integer (w : CertWriter) :
    w.encode_integer_bytes [] = .error .internalError ∧
      get_integer_bytes_size [] true = .ok 2 := by
  constructor
  · rcases h : w.encode_integer_bytes [] with e | res
    · cases e; rfl
    · exfalso
      rw [CertWriter.encode_integer_bytes] at h
      simp only [CertWriter.encode_tag_field, get_integer_bytes_size,
        gss_false, exceptBind_ok, exceptPure_def, Except.ok.injEq,
        exists_eq_left'] at h
      obtain ⟨a, ha, b, hb, h⟩ := h
      simp [int_content_len, exceptBind_ok] at h
  · rfl

theorem C10_witness :
    (CertWriter.mk [0, 0, 0, 0] 0 false).encode_integer_bytes [] =
        .error .internalError ∧
      get_integer_bytes_size [] true = .ok 2 :=
  C10_empty_integer (CertWriter.mk [0, 0, 0, 0] 0 false)
